import Mathlib

namespace Wisdom

/-! Shallow embedding of the task orchestration core of the delib-ai-wisdom
repository: the deterministic composition generator, the retry scheduler with
circuit breaker, the artifact-store task executors, the dataset reducer and
the CSV writer.  Definitions mirror the JavaScript sources
(src/independent-forecast.js, the deliberative stage driver, and
src/build-analysis-dataset.js); machine numbers are modelled as Nat and
rationals, and the file system as an explicit key-value store. -/

/-- Configured per-question retry bound, MAX_RETRIES_PER_QUESTION in both
stage drivers (value 3 in both files). -/
def MAX_RETRIES_PER_QUESTION : ℕ := 3

/-- Circuit-breaker threshold MAX_TOTAL_FAILURES (value 5 in both drivers). -/
def MAX_TOTAL_FAILURES : ℕ := 5

/-- Batch size for concurrent question processing (value 20 in both drivers). -/
def BATCH_SIZE : ℕ := 20

/-- The MODELS constant shared by both stage drivers. -/
def MODELS : List String := ["pro", "sonnet", "gpt5"]

/-- The CONDITIONS constant of the deliberative stage driver. -/
def CONDITIONS : List String :=
  ["diverse_full", "diverse_info", "homo_full", "diverse_none", "homo_none", "homo_info"]

/-- A participant specification: the object literal with fields model,
infoLabel and optional instance pushed by getRequiredForecasts and returned
by getGroupComposition.  The instance field is called inst here because
Lean reserves the word. -/
structure AgentSpec where
  model : String
  infoLabel : String
  inst : Option ℕ
deriving DecidableEq

instance : Inhabited AgentSpec := ⟨⟨"", "", none⟩⟩

/-- One iteration body of the seededShuffle while loop: the destructuring
swap of result positions m and i.  Both indices are always in range in the
source because seededRandom returns a value in the interval from 0
inclusive to 1 exclusive, so floor of the product with m is below m; the
fall-through branch is therefore never taken on the inputs the program
produces. -/
def listSwap {α : Type} (l : List α) (i j : ℕ) : List α :=
  match l.get? i, l.get? j with
  | some a, some b => (l.set i b).set j a
  | _, _ => l

/-- The seededShuffle while loop, with the counter m made explicit.  In the
source, iteration at counter value m computes
i = floor(seededRandom(seed + m) * m), decrements m, and swaps positions m
and i.  The scalar quantity floor(seededRandom(s) * m) is abstracted as
pick s m, since the claims depend only on determinism and on its range,
never on the floating-point sine values. -/
def shuffleSteps {α : Type} (pick : ℕ → ℕ → ℕ) (seed : ℕ) : ℕ → List α → List α
  | 0, result => result
  | m + 1, result => shuffleSteps pick seed m (listSwap result m (pick (seed + (m + 1)) (m + 1)))

/-- seededShuffle from both stage drivers: copies the array and runs the
swap loop from m = length down to 1. -/
def seededShuffle {α : Type} (pick : ℕ → ℕ → ℕ) (array : List α) (seed : ℕ) : List α :=
  shuffleSteps pick seed array.length array

lemma cons_set_perm {α : Type} :
    ∀ (t : List α) (m : ℕ) (b x : α), t.get? m = some b →
      (b :: t.set m x).Perm (x :: t) := by
  intro t
  induction t with
  | nil => intro m b x h; simp at h
  | cons c t2 ih =>
    intro m b x h
    cases m with
    | zero =>
      simp at h
      subst h
      simpa using List.Perm.swap x c t2
    | succ m =>
      simp only [List.get?] at h
      have h1 : (b :: c :: t2.set m x).Perm (c :: b :: t2.set m x) := List.Perm.swap c b _
      have h2 : (b :: t2.set m x).Perm (x :: t2) := ih m b x h
      have h3 : (c :: b :: t2.set m x).Perm (c :: x :: t2) := h2.cons c
      have h4 : (c :: x :: t2).Perm (x :: c :: t2) := List.Perm.swap x c t2
      simpa using (h1.trans h3).trans h4

lemma set_set_perm {α : Type} :
    ∀ (l : List α) (i j : ℕ) (a b : α), l.get? i = some a → l.get? j = some b →
      ((l.set i b).set j a).Perm l := by
  intro l
  induction l with
  | nil => intro i j a b hi; simp at hi
  | cons x t ih =>
    intro i j a b hi hj
    cases i with
    | zero =>
      simp at hi
      subst hi
      cases j with
      | zero =>
        simp at hj
        subst hj
        simp
      | succ m =>
        simp only [List.get?] at hj
        simpa using cons_set_perm t m b x hj
    | succ n =>
      simp only [List.get?] at hi
      cases j with
      | zero =>
        simp at hj
        subst hj
        simpa using cons_set_perm t n a x hi
      | succ m =>
        simp only [List.set]
        exact (ih n m a b hi hj).cons x

lemma listSwap_perm {α : Type} (l : List α) (i j : ℕ) : (listSwap l i j).Perm l := by
  unfold listSwap
  split
  · next a b hi hj => exact set_set_perm l i j a b hi hj
  · exact List.Perm.refl l

lemma shuffleSteps_perm {α : Type} (pick : ℕ → ℕ → ℕ) (seed : ℕ) :
    ∀ (m : ℕ) (l : List α), (shuffleSteps pick seed m l).Perm l := by
  intro m
  induction m with
  | zero => intro l; exact List.Perm.refl l
  | succ m ih =>
    intro l
    exact (ih _).trans (listSwap_perm l m _)

/-- seededShuffle returns a permutation of its input, whatever the seeded
index sequence is. -/
lemma seededShuffle_perm {α : Type} (pick : ℕ → ℕ → ℕ) (array : List α) (seed : ℕ) :
    (seededShuffle pick array seed).Perm array :=
  shuffleSteps_perm pick seed array.length array

lemma seededShuffle_length {α : Type} (pick : ℕ → ℕ → ℕ) (array : List α) (seed : ℕ) :
    (seededShuffle pick array seed).length = array.length :=
  (seededShuffle_perm pick array seed).length_eq

/-- getGroupComposition from the deliberative stage driver, lines 39-94:
maps a condition name to the ordered list of three participant
specifications.  The switch statement with a throwing default case is
modelled as an Option-valued if chain on the condition string. -/
def getGroupComposition (pick : ℕ → ℕ → ℕ) (condition : String)
    (questionId questionIndex : ℕ) : Option (List AgentSpec) :=
  if condition = "diverse_full" then
    some [⟨"pro", "full", none⟩, ⟨"sonnet", "full", none⟩, ⟨"gpt5", "full", none⟩]
  else if condition = "diverse_info" then
    let infoLabels := seededShuffle pick ["info1", "info2", "info3"] questionId
    let models := seededShuffle pick MODELS (questionId + 1)
    some [⟨models.getD 0 "", infoLabels.getD 0 "", none⟩,
          ⟨models.getD 1 "", infoLabels.getD 1 "", none⟩,
          ⟨models.getD 2 "", infoLabels.getD 2 "", none⟩]
  else if condition = "homo_full" then
    let homoModel := MODELS.getD (questionIndex % 3) ""
    some [⟨homoModel, "full", some 1⟩, ⟨homoModel, "full", some 2⟩, ⟨homoModel, "full", some 3⟩]
  else if condition = "diverse_none" then
    some [⟨"pro", "none", none⟩, ⟨"sonnet", "none", none⟩, ⟨"gpt5", "none", none⟩]
  else if condition = "homo_none" then
    let homoNoneModel := MODELS.getD (questionIndex % 3) ""
    some [⟨homoNoneModel, "none", some 1⟩, ⟨homoNoneModel, "none", some 2⟩,
          ⟨homoNoneModel, "none", some 3⟩]
  else if condition = "homo_info" then
    let homoInfoModel := MODELS.getD (questionIndex % 3) ""
    some [⟨homoInfoModel, "info1", some 1⟩, ⟨homoInfoModel, "info2", some 2⟩,
          ⟨homoInfoModel, "info3", some 3⟩]
  else none

/-- The dedup key of addForecast in the independent stage driver:
the template string model-infoLabel-instance, with a null instance
rendered as the empty string. -/
def specKey (s : AgentSpec) : String :=
  s.model ++ "-" ++ s.infoLabel ++ "-" ++ (match s.inst with | none => "" | some n => toString n)

/-- addForecast from getRequiredForecasts: pushes the specification unless
its key was already seen.  The seen set is modelled as the list of keys in
insertion order. -/
def addForecast (st : List String × List AgentSpec) (s : AgentSpec) :
    List String × List AgentSpec :=
  if specKey s ∈ st.1 then st else (st.1 ++ [specKey s], st.2 ++ [s])

/-- The sequence of addForecast calls made by getRequiredForecasts
(lines 38-90 of the independent stage driver), with the two shuffled lists
and the rotating homogeneous model as parameters.  The loops over MODELS
and over the three instances are expanded to their literal elements. -/
def requiredCalls (models infoLabels : List String) (homoModel : String) : List AgentSpec :=
  [⟨"pro", "full", none⟩, ⟨"sonnet", "full", none⟩, ⟨"gpt5", "full", none⟩] ++
  [⟨models.getD 0 "", infoLabels.getD 0 "", none⟩,
   ⟨models.getD 1 "", infoLabels.getD 1 "", none⟩,
   ⟨models.getD 2 "", infoLabels.getD 2 "", none⟩] ++
  [⟨homoModel, "full", some 1⟩, ⟨homoModel, "full", some 2⟩, ⟨homoModel, "full", some 3⟩] ++
  [⟨"pro", "none", none⟩, ⟨"sonnet", "none", none⟩, ⟨"gpt5", "none", none⟩] ++
  [⟨homoModel, "none", some 1⟩, ⟨homoModel, "none", some 2⟩, ⟨homoModel, "none", some 3⟩] ++
  [⟨homoModel, "info1", some 1⟩, ⟨homoModel, "info2", some 2⟩, ⟨homoModel, "info3", some 3⟩]

/-- getRequiredForecasts from the independent stage driver: runs the
addForecast dedup fold over the full call sequence and returns the pushed
specifications. -/
def getRequiredForecasts (pick : ℕ → ℕ → ℕ) (questionId qIndex : ℕ) : List AgentSpec :=
  ((requiredCalls (seededShuffle pick MODELS (questionId + 1))
      (seededShuffle pick ["info1", "info2", "info3"] questionId)
      (MODELS.getD (qIndex % 3) "")).foldl addForecast ([], [])).2

lemma ggc_diverse_full (pick : ℕ → ℕ → ℕ) (qid qi : ℕ) :
    getGroupComposition pick "diverse_full" qid qi =
      some [⟨"pro", "full", none⟩, ⟨"sonnet", "full", none⟩, ⟨"gpt5", "full", none⟩] := by
  unfold getGroupComposition
  rw [if_pos rfl]

lemma ggc_diverse_info (pick : ℕ → ℕ → ℕ) (qid qi : ℕ) :
    getGroupComposition pick "diverse_info" qid qi =
      some [⟨(seededShuffle pick MODELS (qid + 1)).getD 0 "",
             (seededShuffle pick ["info1", "info2", "info3"] qid).getD 0 "", none⟩,
            ⟨(seededShuffle pick MODELS (qid + 1)).getD 1 "",
             (seededShuffle pick ["info1", "info2", "info3"] qid).getD 1 "", none⟩,
            ⟨(seededShuffle pick MODELS (qid + 1)).getD 2 "",
             (seededShuffle pick ["info1", "info2", "info3"] qid).getD 2 "", none⟩] := by
  unfold getGroupComposition
  rw [if_neg (by decide), if_pos rfl]

lemma ggc_homo_full (pick : ℕ → ℕ → ℕ) (qid qi : ℕ) :
    getGroupComposition pick "homo_full" qid qi =
      some [⟨MODELS.getD (qi % 3) "", "full", some 1⟩, ⟨MODELS.getD (qi % 3) "", "full", some 2⟩,
            ⟨MODELS.getD (qi % 3) "", "full", some 3⟩] := by
  unfold getGroupComposition
  rw [if_neg (by decide), if_neg (by decide), if_pos rfl]

lemma ggc_diverse_none (pick : ℕ → ℕ → ℕ) (qid qi : ℕ) :
    getGroupComposition pick "diverse_none" qid qi =
      some [⟨"pro", "none", none⟩, ⟨"sonnet", "none", none⟩, ⟨"gpt5", "none", none⟩] := by
  unfold getGroupComposition
  rw [if_neg (by decide), if_neg (by decide), if_neg (by decide), if_pos rfl]

lemma ggc_homo_none (pick : ℕ → ℕ → ℕ) (qid qi : ℕ) :
    getGroupComposition pick "homo_none" qid qi =
      some [⟨MODELS.getD (qi % 3) "", "none", some 1⟩, ⟨MODELS.getD (qi % 3) "", "none", some 2⟩,
            ⟨MODELS.getD (qi % 3) "", "none", some 3⟩] := by
  unfold getGroupComposition
  rw [if_neg (by decide), if_neg (by decide), if_neg (by decide), if_neg (by decide), if_pos rfl]

lemma ggc_homo_info (pick : ℕ → ℕ → ℕ) (qid qi : ℕ) :
    getGroupComposition pick "homo_info" qid qi =
      some [⟨MODELS.getD (qi % 3) "", "info1", some 1⟩, ⟨MODELS.getD (qi % 3) "", "info2", some 2⟩,
            ⟨MODELS.getD (qi % 3) "", "info3", some 3⟩] := by
  unfold getGroupComposition
  rw [if_neg (by decide), if_neg (by decide), if_neg (by decide), if_neg (by decide),
    if_neg (by decide), if_pos rfl]

lemma flatMap_conditions_eq (pick : ℕ → ℕ → ℕ) (qid qi : ℕ) :
    ((CONDITIONS.map (fun c => (getGroupComposition pick c qid qi).getD [])).flatten) =
      requiredCalls (seededShuffle pick MODELS (qid + 1))
        (seededShuffle pick ["info1", "info2", "info3"] qid) (MODELS.getD (qi % 3) "") := by
  simp only [CONDITIONS, List.map_cons, List.map_nil, ggc_diverse_full, ggc_diverse_info,
    ggc_homo_full, ggc_diverse_none, ggc_homo_none, ggc_homo_info, Option.getD_some]
  simp [requiredCalls]

lemma foldl_addForecast_nodup :
    ∀ (calls : List AgentSpec) (seen : List String) (out : List AgentSpec),
      (∀ c ∈ calls, specKey c ∉ seen) → (calls.map specKey).Nodup →
      calls.foldl addForecast (seen, out) = (seen ++ calls.map specKey, out ++ calls) := by
  intro calls
  induction calls with
  | nil => intro seen out _ _; simp
  | cons c rest ih =>
    intro seen out hseen hnd
    have hc : specKey c ∉ seen := hseen c (by simp)
    simp only [List.foldl_cons, addForecast, if_neg hc]
    simp only [List.map_cons, List.nodup_cons] at hnd
    rw [ih (seen ++ [specKey c]) (out ++ [c]) ?_ hnd.2]
    · simp
    · intro d hd
      simp only [List.mem_append, List.mem_singleton]
      rintro (h1 | h2)
      · exact hseen d (by simp [hd]) h1
      · exact hnd.1 (h2 ▸ List.mem_map_of_mem specKey hd)

lemma perm3_models (l : List String) (h : l.Perm MODELS) :
    l = ["pro", "sonnet", "gpt5"] ∨ l = ["pro", "gpt5", "sonnet"] ∨
    l = ["sonnet", "pro", "gpt5"] ∨ l = ["sonnet", "gpt5", "pro"] ∨
    l = ["gpt5", "pro", "sonnet"] ∨ l = ["gpt5", "sonnet", "pro"] := by
  have hlen : l.length = 3 := h.length_eq
  have hnd : l.Nodup := (h.nodup_iff).mpr (by decide)
  match l, hlen with
  | [x, y, z], _ =>
    have hx : x ∈ MODELS := h.subset (by simp)
    have hy : y ∈ MODELS := h.subset (by simp)
    have hz : z ∈ MODELS := h.subset (by simp)
    simp only [ MODELS, List.mem_cons, List.mem_singleton, List.not_mem_nil, or_false] at hx hy hz
    revert hnd
    rcases hx with rfl | rfl | rfl <;> rcases hy with rfl | rfl | rfl <;>
      rcases hz with rfl | rfl | rfl <;> decide

lemma perm3_infos (l : List String) (h : l.Perm ["info1", "info2", "info3"]) :
    l = ["info1", "info2", "info3"] ∨ l = ["info1", "info3", "info2"] ∨
    l = ["info2", "info1", "info3"] ∨ l = ["info2", "info3", "info1"] ∨
    l = ["info3", "info1", "info2"] ∨ l = ["info3", "info2", "info1"] := by
  have hlen : l.length = 3 := h.length_eq
  have hnd : l.Nodup := (h.nodup_iff).mpr (by decide)
  match l, hlen with
  | [x, y, z], _ =>
    have hx : x ∈ ["info1", "info2", "info3"] := h.subset (by simp)
    have hy : y ∈ ["info1", "info2", "info3"] := h.subset (by simp)
    have hz : z ∈ ["info1", "info2", "info3"] := h.subset (by simp)
    simp only [List.mem_cons, List.mem_singleton, List.not_mem_nil, or_false] at hx hy hz
    revert hnd
    rcases hx with rfl | rfl | rfl <;> rcases hy with rfl | rfl | rfl <;>
      rcases hz with rfl | rfl | rfl <;> decide

lemma requiredCalls_keys_nodup (models infoLabels : List String) (homoModel : String)
    (hm : models.Perm MODELS) (hi : infoLabels.Perm ["info1", "info2", "info3"])
    (hh : homoModel ∈ MODELS) :
    ((requiredCalls models infoLabels homoModel).map specKey).Nodup := by
  rcases perm3_models models hm with rfl | rfl | rfl | rfl | rfl | rfl <;>
    rcases perm3_infos infoLabels hi with rfl | rfl | rfl | rfl | rfl | rfl <;>
    (simp only [ MODELS, List.mem_cons, List.mem_singleton, List.not_mem_nil, or_false] at hh ;
      rcases hh with rfl | rfl | rfl) <;> decide

lemma getRequiredForecasts_eq_calls (pick : ℕ → ℕ → ℕ) (qid qi : ℕ) :
    getRequiredForecasts pick qid qi =
      requiredCalls (seededShuffle pick MODELS (qid + 1))
        (seededShuffle pick ["info1", "info2", "info3"] qid) (MODELS.getD (qi % 3) "") := by
  unfold getRequiredForecasts
  rw [foldl_addForecast_nodup _ [] [] (by intro c _ hc; simp at hc) ?_]
  · simp
  · apply requiredCalls_keys_nodup
    · exact seededShuffle_perm pick MODELS (qid + 1)
    · exact seededShuffle_perm pick ["info1", "info2", "info3"] qid
    · have h3 : qi % 3 = 0 ∨ qi % 3 = 1 ∨ qi % 3 = 2 := by omega
      rcases h3 with h | h | h <;> rw [h] <;> decide

/-- C1: cross-stage composition agreement.  For every seeded index
function, question id and question index, the specification list derived by
the independent stage getRequiredForecasts is exactly the concatenation, in
condition order, of the group compositions the deliberative stage
getGroupComposition re-derives for the same inputs; every condition name in
CONDITIONS is accepted by getGroupComposition.  The two functions therefore
re-derive the identical composition with no shared state. -/
theorem composition_cross_stage_agreement (pick : ℕ → ℕ → ℕ) (qid qi : ℕ) :
    getRequiredForecasts pick qid qi =
      ((CONDITIONS.map (fun c => (getGroupComposition pick c qid qi).getD [])).flatten) ∧
    ∀ c ∈ CONDITIONS, (getGroupComposition pick c qid qi).isSome := by
  constructor
  · rw [flatMap_conditions_eq, getRequiredForecasts_eq_calls]
  · intro c hc
    simp only [CONDITIONS, List.mem_cons, List.mem_singleton, List.not_mem_nil, or_false] at hc
    rcases hc with rfl | rfl | rfl | rfl | rfl | rfl <;>
      simp [ggc_diverse_full, ggc_diverse_info, ggc_homo_full, ggc_diverse_none,
        ggc_homo_none, ggc_homo_info]

/-- The status strings attached to task outcomes by both stage drivers. -/
inductive Status where
  | cached
  | success
  | error
  | persistent_failure
deriving DecidableEq

/-- True for the statuses counted as succeeded by the retry loop. -/
def statusSucceeded (s : Status) : Bool :=
  match s with
  | .cached => true
  | .success => true
  | _ => false

/-- True for the status counted as failed by the retry loop. -/
def statusFailed (s : Status) : Bool :=
  match s with
  | .error => true
  | _ => false

/-- The record collected per task by the retry loop: its status and its
forecast identifier. -/
structure TaskRes where
  status : Status
  forecastId : String
deriving DecidableEq

/-- The instance suffix of a forecast identifier: the template fragment
produced by instance-dash interpolation, empty for a null instance. -/
def instSuffix : Option ℕ → String
  | none => ""
  | some n => "-" ++ toString n

/-- The independent stage forecast identifier
questionId-model-infoLabel-instance. -/
def forecastIdOf (qid : ℕ) (req : AgentSpec) : String :=
  toString qid ++ "-" ++ req.model ++ "-" ++ req.infoLabel ++ instSuffix req.inst

/-- The while retry loop shared verbatim by processQuestion in both stage
drivers.  Task outcomes are abstracted as an oracle exec taking the round
number (the retryCount at dispatch time) and the task; fuel counts the
remaining rounds, so fuel = MAX_RETRIES_PER_QUESTION - retryCount and the
guard retryCount < MAX_RETRIES_PER_QUESTION is fuel > 0.  The final
component is a ghost counter of executed dispatch rounds, present only so
that theorems can speak about how many rounds ran; it affects nothing
else. -/
def retryLoopAux {τ : Type} [DecidableEq τ] (exec : ℕ → τ → Status) (fid : τ → String) :
    ℕ → ℕ → List τ → List TaskRes → ℕ → List TaskRes × List τ × ℕ
  | 0, _, pending, acc, d => (acc, pending, d)
  | fuel + 1, rc, pending, acc, d =>
    if pending = [] then (acc, pending, d)
    else
      let results := pending.map (fun t => TaskRes.mk (exec rc t) (fid t))
      let failed := results.filter (fun r => statusFailed r.status)
      let acc2 := acc ++ results.filter (fun r => statusSucceeded r.status)
      if failed = [] then (acc2, [], d + 1)
      else
        let pending2 := pending.filter (fun t => failed.any (fun f => f.forecastId == fid t))
        retryLoopAux exec fid fuel (rc + 1) pending2 acc2 (d + 1)

/-- Result of processQuestion in the independent stage driver, with the
ghost dispatch-round counter. -/
structure PQOut where
  results : List TaskRes
  persistentFailures : ℕ
  dispatches : ℕ
deriving DecidableEq

/-- processQuestion from the independent stage driver (lines 158-217): the
retry loop from retryCount 0, then the surviving pending requests are
reported as persistent failures. -/
def processQuestion (exec : ℕ → AgentSpec → Status) (qid : ℕ)
    (requiredForecasts : List AgentSpec) : PQOut :=
  let out := retryLoopAux exec (forecastIdOf qid) MAX_RETRIES_PER_QUESTION 0
    requiredForecasts [] 0
  { results := out.1 ++ out.2.1.map (fun req => ⟨.persistent_failure, forecastIdOf qid req⟩),
    persistentFailures := out.2.1.length,
    dispatches := out.2.2 }

lemma retryLoopAux_all_error {τ : Type} [DecidableEq τ] (exec : ℕ → τ → Status)
    (fid : τ → String) (herr : ∀ rc t, exec rc t = .error) :
    ∀ (fuel rc : ℕ) (pending : List τ) (acc : List TaskRes) (d : ℕ), pending ≠ [] →
      retryLoopAux exec fid fuel rc pending acc d = (acc, pending, d + fuel) := by
  intro fuel
  induction fuel with
  | zero => intro rc pending acc d _; rfl
  | succ fuel ih =>
    intro rc pending acc d hne
    simp only [retryLoopAux]
    rw [if_neg hne]
    have hres : ∀ r ∈ pending.map (fun t => TaskRes.mk (exec rc t) (fid t)),
        r.status = Status.error := by
      intro r hr
      rcases List.mem_map.mp hr with ⟨t, _, rfl⟩
      simp [herr]
    have hfail : (pending.map (fun t => TaskRes.mk (exec rc t) (fid t))).filter
        (fun r => statusFailed r.status) = pending.map (fun t => TaskRes.mk (exec rc t) (fid t)) := by
      apply List.filter_eq_self.mpr
      intro r hr
      rw [hres r hr]
      rfl
    have hsucc : (pending.map (fun t => TaskRes.mk (exec rc t) (fid t))).filter
        (fun r => statusSucceeded r.status) = [] := by
      apply List.filter_eq_nil.mpr
      intro r hr
      rw [hres r hr]
      simp [statusSucceeded]
    simp only [hfail, hsucc, List.append_nil]
    have hfne : pending.map (fun t => TaskRes.mk (exec rc t) (fid t)) ≠ [] := by
      simpa using hne
    rw [if_neg hfne]
    have hpend : pending.filter (fun t =>
        (pending.map (fun s => TaskRes.mk (exec rc s) (fid s))).any
          (fun f => f.forecastId == fid t)) = pending := by
      apply List.filter_eq_self.mpr
      intro t ht
      apply List.any_eq_true.mpr
      exact ⟨TaskRes.mk (exec rc t) (fid t), List.mem_map_of_mem _ ht, by simp⟩
    rw [hpend, ih (rc + 1) pending acc (d + 1) hne]
    have harith : d + 1 + fuel = d + (fuel + 1) := by omega
    rw [harith]

/-- The constantly failing execution oracle. -/
def execAllError : ℕ → AgentSpec → Status := fun _ _ => .error

/-- A concrete required forecast used in the retry-bound inputs. -/
def req0 : AgentSpec := ⟨"pro", "full", none⟩

/-- C2 counterexample: on a task that fails every attempt, processQuestion
runs exactly MAX_RETRIES_PER_QUESTION dispatch rounds in total, so the
number of retry rounds beyond the initial attempt is 2, not the
MAX_RETRIES_PER_QUESTION = 3 the claim states; the task is nevertheless
marked as a persistent failure. -/
theorem retry_bound_counterexample :
    (processQuestion execAllError 1 [req0]).dispatches = MAX_RETRIES_PER_QUESTION ∧
    (processQuestion execAllError 1 [req0]).dispatches - 1 = 2 ∧
    2 ≠ MAX_RETRIES_PER_QUESTION ∧
    (processQuestion execAllError 1 [req0]).persistentFailures = 1 ∧
    (processQuestion execAllError 1 [req0]).results =
      [⟨.persistent_failure, forecastIdOf 1 req0⟩] := by
  have h := retryLoopAux_all_error execAllError (forecastIdOf 1) (fun _ _ => rfl)
    3 0 [req0] [] 0 (by simp)
  refine ⟨?_, ?_, by decide, ?_, ?_⟩ <;>
    simp [processQuestion, MAX_RETRIES_PER_QUESTION, h]

/-- C2 (amended): a task set that fails every attempt is reported entirely
as persistent failures after exactly MAX_RETRIES_PER_QUESTION = 3 dispatch
rounds in total, that is, the initial attempt plus 2 retry rounds, never
more, never fewer. -/
theorem retry_bound_amended (exec : ℕ → AgentSpec → Status) (qid : ℕ)
    (reqs : List AgentSpec) (hne : reqs ≠ []) (herr : ∀ rc t, exec rc t = .error) :
    (processQuestion exec qid reqs).persistentFailures = reqs.length ∧
    (processQuestion exec qid reqs).dispatches = MAX_RETRIES_PER_QUESTION ∧
    ∀ r ∈ (processQuestion exec qid reqs).results, r.status = .persistent_failure := by
  have h := retryLoopAux_all_error exec (forecastIdOf qid) herr
    MAX_RETRIES_PER_QUESTION 0 reqs [] 0 hne
  refine ⟨?_, ?_, ?_⟩
  · simp [processQuestion, h]
  · simp [processQuestion, h]
  · intro r hr
    simp only [processQuestion, h] at hr
    simp only [List.nil_append, List.mem_map] at hr
    rcases hr with ⟨t, _, rfl⟩
    rfl

/-- C2 witness: the amended retry bound instantiated on one concrete
always-failing task. -/
theorem retry_bound_amended_witness :
    ([req0] ≠ ([] : List AgentSpec)) ∧
    ((processQuestion execAllError 1 [req0]).persistentFailures = [req0].length ∧
      (processQuestion execAllError 1 [req0]).dispatches = MAX_RETRIES_PER_QUESTION ∧
      ∀ r ∈ (processQuestion execAllError 1 [req0]).results,
        r.status = .persistent_failure) :=
  ⟨by simp, retry_bound_amended execAllError 1 [req0] (by simp) (fun _ _ => rfl)⟩

/-- State threaded through the batched main loop of either stage driver:
qwf models questionsWithFailures (as question indices), dispatched the
set of question indices whose processQuestion promise was created, and
halted whether process.exit(1) fired inside the loop. -/
structure RunState where
  qwf : List ℕ
  dispatched : List ℕ
  halted : Bool
deriving DecidableEq

/-- Per-question result processing in main: the oracle pf gives the
persistentFailures count each question resolved with; a failing question is
appended to questionsWithFailures and the circuit breaker fires when the
tally reaches MAX_TOTAL_FAILURES.  After process.exit the remaining code
never runs, modelled by the halted guard. -/
def stepQ (pf : ℕ → ℕ) (s : RunState) (i : ℕ) : RunState :=
  if s.halted then s
  else if 0 < pf i then
    let q := s.qwf ++ [i]
    { s with qwf := q, halted := decide (MAX_TOTAL_FAILURES ≤ q.length) }
  else s

/-- One batch of the main loop: all the questions of the batch are
dispatched together (batch.map creates every promise before the await),
then their results are processed in batch order. -/
def processBatch (pf : ℕ → ℕ) (s : RunState) (batch : List ℕ) : RunState :=
  if s.halted then s
  else batch.foldl (stepQ pf) { s with dispatched := s.dispatched ++ batch }

/-- The batch partition of question indices: slices of BATCH_SIZE starting
at batchStart = 0, BATCH_SIZE, ...; fuel bounds the recursion and n rounds
suffice. -/
def batchList : ℕ → ℕ → ℕ → List (List ℕ)
  | 0, _, _ => []
  | fuel + 1, start, n =>
    if start < n then
      List.range' start (min BATCH_SIZE (n - start)) :: batchList fuel (start + BATCH_SIZE) n
    else []

/-- The batches of a corpus of n questions. -/
def batches (n : ℕ) : List (List ℕ) := batchList n 0 n

/-- The initial state of the main loop. -/
def initialRunState : RunState := ⟨[], [], false⟩

/-- The batched portion of main, common to both stage drivers. -/
def runBatches (pf : ℕ → ℕ) (n : ℕ) : RunState :=
  (batches n).foldl (processBatch pf) initialRunState

/-- Exit status of the independent stage main: 1 on a mid-run circuit
breaker exit, otherwise 1 when questionsWithFailures is non-empty at the
end (lines 288-304 of the independent stage driver), else 0. -/
def independentMainExit (pf : ℕ → ℕ) (n : ℕ) : ℕ :=
  if (runBatches pf n).halted then 1
  else if 0 < (runBatches pf n).qwf.length then 1 else 0

/-- Exit status of the deliberative stage main: 1 only on a mid-run circuit
breaker exit; the completed-with-failures summary at the end does not call
process.exit, so the process ends with status 0. -/
def deliberativeMainExit (pf : ℕ → ℕ) (n : ℕ) : ℕ :=
  if (runBatches pf n).halted then 1 else 0

/-- Question indices of a list whose processQuestion reported at least one
persistent failure. -/
def failingAmong (pf : ℕ → ℕ) (l : List ℕ) : List ℕ :=
  l.filter (fun i => decide (0 < pf i))

/-- Number of questions of the corpus with at least one persistent
failure. -/
def failingCount (pf : ℕ → ℕ) (n : ℕ) : ℕ :=
  (failingAmong pf (List.range n)).length

/-- The number of batches dispatched before the circuit breaker halts a run
whose remaining failure budget is r: batches are counted until their
cumulative failing questions reach r. -/
def dispatchCount (pf : ℕ → ℕ) : ℕ → List (List ℕ) → ℕ
  | _, [] => 0
  | r, b :: bs =>
    if r ≤ (failingAmong pf b).length then 1
    else 1 + dispatchCount pf (r - (failingAmong pf b).length) bs

lemma stepQ_halted (pf : ℕ → ℕ) (s : RunState) (i : ℕ) (h : s.halted = true) :
    stepQ pf s i = s := by
  simp [stepQ, h]

lemma foldl_stepQ_halted (pf : ℕ → ℕ) :
    ∀ (l : List ℕ) (s : RunState), s.halted = true → l.foldl (stepQ pf) s = s := by
  intro l
  induction l with
  | nil => intro s _; rfl
  | cons c l ih =>
    intro s h
    rw [List.foldl_cons, stepQ_halted pf s c h, ih s h]

lemma processBatch_halted (pf : ℕ → ℕ) (s : RunState) (b : List ℕ) (h : s.halted = true) :
    processBatch pf s b = s := by
  simp [processBatch, h]

lemma foldl_processBatch_halted (pf : ℕ → ℕ) :
    ∀ (bs : List (List ℕ)) (s : RunState), s.halted = true →
      bs.foldl (processBatch pf) s = s := by
  intro bs
  induction bs with
  | nil => intro s _; rfl
  | cons b bs ih =>
    intro s h
    rw [List.foldl_cons, processBatch_halted pf s b h, ih s h]

lemma failingAmong_append (pf : ℕ → ℕ) (l1 l2 : List ℕ) :
    failingAmong pf (l1 ++ l2) = failingAmong pf l1 ++ failingAmong pf l2 := by
  simp [failingAmong, List.filter_append]

lemma foldl_stepQ_spec (pf : ℕ → ℕ) :
    ∀ (l : List ℕ) (s : RunState), s.halted = false →
      s.qwf.length < MAX_TOTAL_FAILURES →
      (l.foldl (stepQ pf) s).qwf =
        s.qwf ++ (failingAmong pf l).take (MAX_TOTAL_FAILURES - s.qwf.length) ∧
      (l.foldl (stepQ pf) s).halted =
        decide (MAX_TOTAL_FAILURES - s.qwf.length ≤ (failingAmong pf l).length) ∧
      (l.foldl (stepQ pf) s).dispatched = s.dispatched := by
  intro l
  induction l with
  | nil =>
    intro s hh hlen
    refine ⟨by simp [failingAmong], ?_, rfl⟩
    simp only [List.foldl_nil, failingAmong, List.filter_nil, List.length_nil]
    rw [hh]
    symm
    rw [decide_eq_false_iff_not]
    omega
  | cons c l ih =>
    intro s hh hlen
    by_cases hc : 0 < pf c
    · have hfa : failingAmong pf (c :: l) = c :: failingAmong pf l := by
        simp [failingAmong, hc]
      by_cases h5 : MAX_TOTAL_FAILURES ≤ s.qwf.length + 1
      · have hstep : stepQ pf s c = { s with qwf := s.qwf ++ [c], halted := true } := by
          simp only [stepQ, hh, if_false, Bool.false_eq_true, hc, if_true]
          simp [h5]
        rw [List.foldl_cons, hstep, foldl_stepQ_halted pf l _ rfl]
        have hr1 : MAX_TOTAL_FAILURES - s.qwf.length = 1 := by omega
        refine ⟨?_, ?_, rfl⟩
        · simp [hfa, hr1]
        · simp [hfa, hr1]
      · have hstep : stepQ pf s c = { s with qwf := s.qwf ++ [c], halted := false } := by
          simp only [stepQ, hh, if_false, Bool.false_eq_true, hc, if_true]
          simp [h5]
        rw [List.foldl_cons, hstep]
        have hlen2 : (s.qwf ++ [c]).length < MAX_TOTAL_FAILURES := by
          simp only [List.length_append, List.length_cons, List.length_nil]
          omega
        obtain ⟨ih1, ih2, ih3⟩ := ih { s with qwf := s.qwf ++ [c], halted := false } rfl hlen2
        refine ⟨?_, ?_, ih3⟩
        · rw [ih1]
          simp only [hfa, List.length_append, List.length_cons, List.length_nil]
          have harith : MAX_TOTAL_FAILURES - s.qwf.length =
              (MAX_TOTAL_FAILURES - (s.qwf.length + 1)) + 1 := by omega
          rw [harith, List.take_succ_cons]
          simp
        · rw [ih2]
          simp only [hfa, List.length_append, List.length_cons, List.length_nil]
          rw [decide_eq_decide]
          omega
    · have hfa : failingAmong pf (c :: l) = failingAmong pf l := by
        simp [failingAmong, hc]
      have hstep : stepQ pf s c = s := by
        simp [stepQ, hh, hc]
      rw [List.foldl_cons, hstep, hfa]
      exact ih s hh hlen

lemma foldl_processBatch_spec (pf : ℕ → ℕ) :
    ∀ (bs : List (List ℕ)) (s : RunState), s.halted = false →
      s.qwf.length < MAX_TOTAL_FAILURES →
      (bs.foldl (processBatch pf) s).qwf =
        s.qwf ++ (failingAmong pf bs.flatten).take (MAX_TOTAL_FAILURES - s.qwf.length) ∧
      (bs.foldl (processBatch pf) s).halted =
        decide (MAX_TOTAL_FAILURES - s.qwf.length ≤ (failingAmong pf bs.flatten).length) ∧
      (bs.foldl (processBatch pf) s).dispatched =
        s.dispatched ++
          ((bs.take (dispatchCount pf (MAX_TOTAL_FAILURES - s.qwf.length) bs)).flatten) := by
  intro bs
  induction bs with
  | nil =>
    intro s hh hlen
    refine ⟨by simp [failingAmong], ?_, by simp [dispatchCount]⟩
    simp only [List.foldl_nil, List.flatten_nil, failingAmong, List.filter_nil, List.length_nil]
    rw [hh]
    symm
    rw [decide_eq_false_iff_not]
    omega
  | cons b bs ih =>
    intro s hh hlen
    have hpb : processBatch pf s b =
        b.foldl (stepQ pf) { s with dispatched := s.dispatched ++ b } := by
      simp [processBatch, hh]
    obtain ⟨i1, i2, i3⟩ := foldl_stepQ_spec pf b
      { s with dispatched := s.dispatched ++ b } hh (by simpa using hlen)
    dsimp only at i1 i2 i3
    rw [List.foldl_cons, hpb]
    have hjoin : failingAmong pf ((b :: bs).flatten) =
        failingAmong pf b ++ failingAmong pf bs.flatten := by
      simp [failingAmong, List.filter_append]
    by_cases hth : MAX_TOTAL_FAILURES - s.qwf.length ≤ (failingAmong pf b).length
    · have hhalt2 : (b.foldl (stepQ pf) { s with dispatched := s.dispatched ++ b }).halted
          = true := by
        rw [i2]
        simpa using hth
      rw [foldl_processBatch_halted pf bs _ hhalt2]
      have hdc : dispatchCount pf (MAX_TOTAL_FAILURES - s.qwf.length) (b :: bs) = 1 := by
        simp [dispatchCount, hth]
      refine ⟨?_, ?_, ?_⟩
      · rw [i1, hjoin]
        simp only [List.take_append_eq_append_take]
        have : MAX_TOTAL_FAILURES - s.qwf.length - (failingAmong pf b).length = 0 := by omega
        rw [this]
        simp
      · rw [hhalt2, hjoin]
        symm
        simp only [decide_eq_true_eq, List.length_append]
        omega
      · rw [i3, hdc]
        simp
    · have hhalt2 : (b.foldl (stepQ pf) { s with dispatched := s.dispatched ++ b }).halted
          = false := by
        rw [i2]
        simpa using hth
      have hq2 : (b.foldl (stepQ pf) { s with dispatched := s.dispatched ++ b }).qwf =
          s.qwf ++ failingAmong pf b := by
        rw [i1]
        congr 1
        exact List.take_all_of_le (by omega)
      have hlen2 : (b.foldl (stepQ pf) { s with dispatched := s.dispatched ++ b }).qwf.length
          < MAX_TOTAL_FAILURES := by
        rw [hq2]
        simp only [List.length_append]
        omega
      obtain ⟨j1, j2, j3⟩ := ih (b.foldl (stepQ pf) { s with dispatched := s.dispatched ++ b })
        hhalt2 hlen2
      have hdc : dispatchCount pf (MAX_TOTAL_FAILURES - s.qwf.length) (b :: bs) =
          1 + dispatchCount pf
            (MAX_TOTAL_FAILURES - s.qwf.length - (failingAmong pf b).length) bs := by
        simp [dispatchCount, hth]
      have hr2 : MAX_TOTAL_FAILURES -
          (b.foldl (stepQ pf) { s with dispatched := s.dispatched ++ b }).qwf.length =
          MAX_TOTAL_FAILURES - s.qwf.length - (failingAmong pf b).length := by
        rw [hq2]
        simp only [List.length_append]
        omega
      refine ⟨?_, ?_, ?_⟩
      · rw [j1, hq2, hjoin, List.take_append_eq_append_take]
        have ht1 : List.take (MAX_TOTAL_FAILURES - s.qwf.length) (failingAmong pf b) =
            failingAmong pf b := List.take_all_of_le (by omega)
        rw [ht1]
        have harith : MAX_TOTAL_FAILURES - (s.qwf ++ failingAmong pf b).length =
            MAX_TOTAL_FAILURES - s.qwf.length - (failingAmong pf b).length := by
          simp only [List.length_append]
          omega
        rw [harith, List.append_assoc]
      · rw [j2, hr2, hjoin]
        rw [decide_eq_decide]
        simp only [List.length_append]
        omega
      · rw [j3, i3, hr2, hdc]
        have hcomm : (1 + dispatchCount pf
            (MAX_TOTAL_FAILURES - s.qwf.length - (failingAmong pf b).length) bs) =
            (dispatchCount pf
              (MAX_TOTAL_FAILURES - s.qwf.length - (failingAmong pf b).length) bs) + 1 := by
          omega
        rw [hcomm, List.take_succ_cons, List.flatten_cons]
        simp [List.append_assoc]

lemma batchList_join :
    ∀ (fuel start n : ℕ), n - start ≤ 20 * fuel →
      (batchList fuel start n).flatten = List.range' start (n - start) := by
  intro fuel
  induction fuel with
  | zero =>
    intro start n h
    have hz : n - start = 0 := by omega
    simp [batchList, hz]
  | succ fuel ih =>
    intro start n h
    by_cases hlt : start < n
    · simp only [batchList, BATCH_SIZE, if_pos hlt, List.flatten_cons]
      rw [ih (start + 20) n (by omega)]
      by_cases hbig : n - start ≤ 20
      · have hmin : min 20 (n - start) = n - start := by omega
        have hz : n - (start + 20) = 0 := by omega
        rw [hmin, hz]
        simp
      · have hmin : min 20 (n - start) = 20 := by omega
        rw [hmin]
        have hra := List.range'_append start 20 (n - (start + 20)) 1
        simp only [one_mul, Nat.mul_one] at hra
        rw [show n - start = n - (start + 20) + 20 by omega]
        rw [← hra]
    · simp [batchList, if_neg hlt, show n - start = 0 by omega]

lemma batches_join (n : ℕ) : (batches n).flatten = List.range n := by
  rw [batches, batchList_join n 0 n (by omega)]
  simp [List.range_eq_range']

lemma runBatches_spec (pf : ℕ → ℕ) (n : ℕ) :
    (runBatches pf n).qwf = (failingAmong pf (List.range n)).take MAX_TOTAL_FAILURES ∧
    (runBatches pf n).halted = decide (MAX_TOTAL_FAILURES ≤ failingCount pf n) ∧
    (runBatches pf n).dispatched =
      ((batches n).take (dispatchCount pf MAX_TOTAL_FAILURES (batches n))).flatten := by
  obtain ⟨h1, h2, h3⟩ := foldl_processBatch_spec pf (batches n) initialRunState rfl
    (by simp [initialRunState, MAX_TOTAL_FAILURES])
  rw [batches_join] at h1 h2
  refine ⟨?_, ?_, ?_⟩
  · simpa [initialRunState, runBatches] using h1
  · simpa [initialRunState, runBatches, failingCount] using h2
  · simpa [initialRunState, runBatches] using h3

/-- The constant persistent-failure oracle: every question fails. -/
def pfOne : ℕ → ℕ := fun _ => 1

/-- C3 counterexample: a one-question run of the independent stage in which
the single question has a persistent failure exits with status 1 even
though the circuit-breaker threshold of 5 was never reached, refuting the
claim that either stage exits non-zero only when the threshold was hit. -/
theorem exit_status_counterexample :
    independentMainExit pfOne 1 = 1 ∧ failingCount pfOne 1 < MAX_TOTAL_FAILURES := by
  decide

/-- C3 (amended): the independent stage exits 0 exactly when no question
had a persistent failure, so it exits non-zero on any persistent failure,
threshold or not; the deliberative stage exits 0 exactly when the
circuit-breaker threshold MAX_TOTAL_FAILURES was not reached. -/
theorem exit_status_amended (pf : ℕ → ℕ) (n : ℕ) :
    (independentMainExit pf n = 0 ↔ failingCount pf n = 0) ∧
    (deliberativeMainExit pf n = 0 ↔ failingCount pf n < MAX_TOTAL_FAILURES) := by
  obtain ⟨h1, h2, _⟩ := runBatches_spec pf n
  have hlen : (runBatches pf n).qwf.length = min MAX_TOTAL_FAILURES (failingCount pf n) := by
    rw [h1, List.length_take]
    rfl
  have hM : MAX_TOTAL_FAILURES = 5 := rfl
  constructor
  · rw [independentMainExit, h2]
    by_cases hth : MAX_TOTAL_FAILURES ≤ failingCount pf n
    · rw [if_pos (by simpa using hth)]
      constructor
      · intro h; exact absurd h one_ne_zero
      · intro h; exfalso; omega
    · rw [if_neg (by simpa using hth)]
      by_cases hq : 0 < (runBatches pf n).qwf.length
      · rw [if_pos hq]
        rw [hlen] at hq
        constructor
        · intro h; exact absurd h one_ne_zero
        · intro h; exfalso; omega
      · rw [if_neg hq]
        rw [hlen] at hq
        constructor
        · intro _; omega
        · intro _; rfl
  · rw [deliberativeMainExit, h2]
    by_cases hth : MAX_TOTAL_FAILURES ≤ failingCount pf n
    · rw [if_pos (by simpa using hth)]
      constructor
      · intro h; exact absurd h one_ne_zero
      · intro h; omega
    · rw [if_neg (by simpa using hth)]
      constructor
      · intro _; omega
      · intro _; rfl

lemma dispatchCount_spec (pf : ℕ → ℕ) :
    ∀ (bs : List (List ℕ)) (r : ℕ), 0 < r → r ≤ (failingAmong pf bs.flatten).length →
      r ≤ (failingAmong pf ((bs.take (dispatchCount pf r bs)).flatten)).length ∧
      (failingAmong pf ((bs.take (dispatchCount pf r bs - 1)).flatten)).length < r := by
  intro bs
  induction bs with
  | nil =>
    intro r hr h
    exfalso
    simp [failingAmong] at h
    omega
  | cons b bs ih =>
    intro r hr h
    have hjoin : failingAmong pf ((b :: bs).flatten) =
        failingAmong pf b ++ failingAmong pf bs.flatten := by
      simp [failingAmong, List.filter_append]
    by_cases hth : r ≤ (failingAmong pf b).length
    · have hdc : dispatchCount pf r (b :: bs) = 1 := by simp [dispatchCount, hth]
      rw [hdc]
      constructor
      · simpa [failingAmong] using hth
      · simpa [failingAmong] using hr
    · have hdc : dispatchCount pf r (b :: bs) =
          1 + dispatchCount pf (r - (failingAmong pf b).length) bs := by
        simp [dispatchCount, hth]
      rw [hjoin, List.length_append] at h
      have hr0 : 0 < r - (failingAmong pf b).length := by omega
      have hle0 : r - (failingAmong pf b).length ≤ (failingAmong pf bs.flatten).length := by
        omega
      obtain ⟨p1, p2⟩ := ih (r - (failingAmong pf b).length) hr0 hle0
      have hbs : bs ≠ [] := by
        rintro rfl
        have hz : (failingAmong pf (List.flatten ([] : List (List ℕ)))).length = 0 := rfl
        omega
      have hk1 : 1 ≤ dispatchCount pf (r - (failingAmong pf b).length) bs := by
        match bs, hbs with
        | b2 :: bs2, _ =>
          rw [dispatchCount]
          split
          · omega
          · omega
      rw [hdc]
      constructor
      · rw [show 1 + dispatchCount pf (r - (failingAmong pf b).length) bs =
            (dispatchCount pf (r - (failingAmong pf b).length) bs) + 1 by omega]
        rw [List.take_succ_cons, List.flatten_cons, failingAmong_append, List.length_append]
        omega
      · rw [show 1 + dispatchCount pf (r - (failingAmong pf b).length) bs - 1 =
            (dispatchCount pf (r - (failingAmong pf b).length) bs - 1) + 1 by omega]
        rw [List.take_succ_cons, List.flatten_cons, failingAmong_append, List.length_append]
        omega

/-- C4: circuit breaker.  Whenever the corpus contains at least
MAX_TOTAL_FAILURES = 5 failing questions, the run halts mid-loop, and the
dispatched questions are exactly the batches up to and including the batch
whose results brought the tally to the threshold: the cumulative failing
count through the dispatched batches reaches 5 while through all earlier
batches it is below 5, the whole triggering batch is dispatched
(its in-flight tasks complete), and no later batch is ever dispatched. -/
theorem circuit_breaker_halts (pf : ℕ → ℕ) (n : ℕ)
    (h : MAX_TOTAL_FAILURES ≤ failingCount pf n) :
    (runBatches pf n).halted = true ∧
    (runBatches pf n).dispatched =
      ((batches n).take (dispatchCount pf MAX_TOTAL_FAILURES (batches n))).flatten ∧
    MAX_TOTAL_FAILURES ≤ (failingAmong pf
      (((batches n).take (dispatchCount pf MAX_TOTAL_FAILURES (batches n))).flatten)).length ∧
    (failingAmong pf
      (((batches n).take (dispatchCount pf MAX_TOTAL_FAILURES (batches n) - 1)).flatten)).length
      < MAX_TOTAL_FAILURES := by
  obtain ⟨_, h2, h3⟩ := runBatches_spec pf n
  have hcnt : MAX_TOTAL_FAILURES ≤ (failingAmong pf ((batches n).flatten)).length := by
    rw [batches_join]
    exact h
  obtain ⟨p1, p2⟩ := dispatchCount_spec pf (batches n) MAX_TOTAL_FAILURES
    (by have hM : MAX_TOTAL_FAILURES = 5 := rfl; omega) hcnt
  exact ⟨by rw [h2]; simpa using h, h3, p1, p2⟩

/-- Oracle making exactly the first five questions fail. -/
def pfFirstFive : ℕ → ℕ := fun i => if i < 5 then 1 else 0

/-- C4 witness: on a 25-question corpus whose first five questions fail,
the threshold is met inside the first batch, the run halts, only the first
batch (questions 0 to 19) is ever dispatched, and the second batch is
not. -/
theorem circuit_breaker_halts_witness :
    MAX_TOTAL_FAILURES ≤ failingCount pfFirstFive 25 ∧
    ((runBatches pfFirstFive 25).halted = true ∧
      (runBatches pfFirstFive 25).dispatched =
        ((batches 25).take (dispatchCount pfFirstFive MAX_TOTAL_FAILURES (batches 25))).flatten ∧
      MAX_TOTAL_FAILURES ≤ (failingAmong pfFirstFive
        (((batches 25).take
          (dispatchCount pfFirstFive MAX_TOTAL_FAILURES (batches 25))).flatten)).length ∧
      (failingAmong pfFirstFive
        (((batches 25).take
          (dispatchCount pfFirstFive MAX_TOTAL_FAILURES (batches 25) - 1)).flatten)).length
        < MAX_TOTAL_FAILURES) ∧
    (runBatches pfFirstFive 25).dispatched = List.range 20 :=
  ⟨by decide, circuit_breaker_halts pfFirstFive 25 (by decide), by decide⟩

/-- A question record of the processed corpus, with the fields the
orchestration core reads. -/
structure Question where
  id : ℕ
  questionTitle : String
  questionDescription : String
  questionResolutionCriteria : String
  questionFinePrint : String
  date : String
  resolution : String
  informationPackages : List String
deriving DecidableEq

/-- The structured object returned by the independent forecasting agent,
restricted to the fields the orchestration core and the reducer read. -/
structure ForecastObj where
  probability : ℚ
  rationale : String
deriving DecidableEq

/-- The result record written by generateSingleForecast to
data/independent-forecasts. -/
structure StoredIndep where
  forecastId : String
  questionId : ℕ
  model : String
  infoLabel : String
  inst : Option ℕ
  information : String
  forecast : ForecastObj
  prompt : String
deriving DecidableEq

/-- The artifact store of the independent stage: the file system under
data/independent-forecasts, as a map from path to parsed record. -/
abbrev IndepStore : Type := String → Option StoredIndep

/-- Output path of an independent forecast file. -/
def indepPath (fid : String) : String :=
  "data/independent-forecasts/" ++ fid ++ ".json"

/-- loadIndependentForecast from the deliberative stage driver
(lines 100-109): reads the file for the given key, returning null when it
does not exist. -/
def loadIndependentForecast (store : IndepStore) (questionId : ℕ)
    (model infoLabel : String) (inst : Option ℕ) : Option StoredIndep :=
  store (indepPath (toString questionId ++ "-" ++ model ++ "-" ++ infoLabel ++ instSuffix inst))

/-- A deliberative task as built by createTask (lines 161-168 of the
deliberative stage driver). -/
structure DelibTask where
  condition : String
  groupComposition : List AgentSpec
  independentForecasts : List (Option StoredIndep)
  position : ℕ
  forecastId : String
deriving DecidableEq

/-- The deliberative forecast identifier
questionId-condition-model-position, with the model of the agent at the
given 1-based position of the group. -/
def delibForecastIdOf (qid : ℕ) (condition : String)
    (groupComposition : List AgentSpec) (position : ℕ) : String :=
  toString qid ++ "-" ++ condition ++ "-" ++
    (groupComposition.getD (position - 1) default).model ++ "-" ++ toString position

/-- createTask from the deliberative stage driver. -/
def createTask (qid : ℕ) (condition : String) (groupComposition : List AgentSpec)
    (independentForecasts : List (Option StoredIndep)) (position : ℕ) : DelibTask :=
  ⟨condition, groupComposition, independentForecasts, position,
    delibForecastIdOf qid condition groupComposition position⟩

/-- The group composition the deliberative processQuestion derives for a
condition; the throwing default case never fires on CONDITIONS members. -/
def compFor (pick : ℕ → ℕ → ℕ) (c : String) (qid qIndex : ℕ) : List AgentSpec :=
  (getGroupComposition pick c qid qIndex).getD []

/-- The independent forecasts loaded for a condition group. -/
def indepsFor (pick : ℕ → ℕ → ℕ) (store : IndepStore) (c : String)
    (qid qIndex : ℕ) : List (Option StoredIndep) :=
  (compFor pick c qid qIndex).map
    (fun a => loadIndependentForecast store qid a.model a.infoLabel a.inst)

/-- The some-null check of processQuestion: true when at least one of the
three independent forecasts of the group is missing from the store. -/
def conditionMissing (pick : ℕ → ℕ → ℕ) (store : IndepStore) (qid qIndex : ℕ)
    (c : String) : Bool :=
  (indepsFor pick store c qid qIndex).any (fun f => f.isNone)

/-- One condition of the task-collection loop of the deliberative
processQuestion (lines 174-194): a missing group adds 3 to skipped, a
complete group contributes its three positioned tasks. -/
def collectStep (pick : ℕ → ℕ → ℕ) (store : IndepStore) (qid qIndex : ℕ)
    (st : List DelibTask × ℕ) (c : String) : List DelibTask × ℕ :=
  if conditionMissing pick store qid qIndex c then (st.1, st.2 + 3)
  else
    (st.1 ++
      [createTask qid c (compFor pick c qid qIndex) (indepsFor pick store c qid qIndex) 1,
       createTask qid c (compFor pick c qid qIndex) (indepsFor pick store c qid qIndex) 2,
       createTask qid c (compFor pick c qid qIndex) (indepsFor pick store c qid qIndex) 3],
     st.2)

/-- The full task collection of the deliberative processQuestion: fold over
CONDITIONS of the per-condition step, from no tasks and no skips. -/
def collectTasks (pick : ℕ → ℕ → ℕ) (store : IndepStore) (qid qIndex : ℕ) :
    List DelibTask × ℕ :=
  CONDITIONS.foldl (collectStep pick store qid qIndex) ([], 0)

/-- Result of the deliberative processQuestion: outcomes, persistent
failure count, skipped count, and the ghost dispatch-round counter. -/
structure DPQOut where
  results : List TaskRes
  persistentFailures : ℕ
  skipped : ℕ
  dispatches : ℕ
deriving DecidableEq

/-- processQuestion from the deliberative stage driver (lines 170-258):
collect the tasks whose groups are complete, return early when none, then
run the shared retry loop and report survivors as persistent failures. -/
def processQuestionDeliberative (pick : ℕ → ℕ → ℕ) (store : IndepStore)
    (exec : ℕ → DelibTask → Status) (qid qIndex : ℕ) : DPQOut :=
  let collected := collectTasks pick store qid qIndex
  if collected.1 = [] then ⟨[], 0, collected.2, 0⟩
  else
    let out := retryLoopAux exec (fun t => t.forecastId) MAX_RETRIES_PER_QUESTION 0
      collected.1 [] 0
    ⟨out.1 ++ out.2.1.map (fun t => ⟨.persistent_failure, t.forecastId⟩),
      out.2.1.length, collected.2, out.2.2⟩

/-- The block of tasks a single condition contributes. -/
def tasksFor (pick : ℕ → ℕ → ℕ) (store : IndepStore) (qid qIndex : ℕ)
    (c : String) : List DelibTask :=
  if conditionMissing pick store qid qIndex c then []
  else
    [createTask qid c (compFor pick c qid qIndex) (indepsFor pick store c qid qIndex) 1,
     createTask qid c (compFor pick c qid qIndex) (indepsFor pick store c qid qIndex) 2,
     createTask qid c (compFor pick c qid qIndex) (indepsFor pick store c qid qIndex) 3]

lemma collect_foldl (pick : ℕ → ℕ → ℕ) (store : IndepStore) (qid qIndex : ℕ) :
    ∀ (cs : List String) (ts0 : List DelibTask) (k0 : ℕ),
      cs.foldl (collectStep pick store qid qIndex) (ts0, k0) =
        (ts0 ++ ((cs.map (tasksFor pick store qid qIndex)).flatten),
         k0 + 3 * cs.countP (conditionMissing pick store qid qIndex)) := by
  intro cs
  induction cs with
  | nil => intro ts0 k0; simp
  | cons c cs ih =>
    intro ts0 k0
    rw [List.foldl_cons]
    by_cases hm : conditionMissing pick store qid qIndex c = true
    · have hstep : collectStep pick store qid qIndex (ts0, k0) c = (ts0, k0 + 3) := by
        simp [collectStep, hm]
      rw [hstep, ih]
      have htf : tasksFor pick store qid qIndex c = [] := by simp [tasksFor, hm]
      rw [List.map_cons, List.flatten_cons, htf, List.nil_append]
      rw [List.countP_cons_of_pos _ _ hm]
      have : k0 + 3 + 3 * cs.countP (conditionMissing pick store qid qIndex) =
          k0 + 3 * (cs.countP (conditionMissing pick store qid qIndex) + 1) := by ring
      rw [this]
    · have hm2 : conditionMissing pick store qid qIndex c = false := by
        simpa using hm
      have hstep : collectStep pick store qid qIndex (ts0, k0) c =
          (ts0 ++ tasksFor pick store qid qIndex c, k0) := by
        simp [collectStep, hm2, tasksFor]
      rw [hstep, ih]
      rw [List.map_cons, List.flatten_cons, List.countP_cons_of_neg _ _ (by simp [hm2])]
      simp [List.append_assoc]

lemma mem_collectTasks (pick : ℕ → ℕ → ℕ) (store : IndepStore) (qid qIndex : ℕ)
    (t : DelibTask) (ht : t ∈ (collectTasks pick store qid qIndex).1) :
    ∃ c ∈ CONDITIONS, conditionMissing pick store qid qIndex c = false ∧
      t.condition = c ∧ t.independentForecasts = indepsFor pick store c qid qIndex ∧
      ∃ p ∈ [1, 2, 3],
        t = createTask qid c (compFor pick c qid qIndex)
          (indepsFor pick store c qid qIndex) p := by
  rw [collectTasks, collect_foldl] at ht
  simp only [List.nil_append, List.mem_flatten, List.mem_map] at ht
  obtain ⟨block, ⟨c, hc, rfl⟩, htb⟩ := ht
  refine ⟨c, hc, ?_⟩
  rw [tasksFor] at htb
  by_cases hm : conditionMissing pick store qid qIndex c = true
  · rw [if_pos hm] at htb
    simp at htb
  · have hm2 : conditionMissing pick store qid qIndex c = false := by simpa using hm
    rw [if_neg hm] at htb
    refine ⟨hm2, ?_⟩
    simp only [List.mem_cons, List.mem_singleton, List.not_mem_nil, or_false] at htb
    rcases htb with rfl | rfl | rfl
    · exact ⟨rfl, rfl, 1, by simp, rfl⟩
    · exact ⟨rfl, rfl, 2, by simp, rfl⟩
    · exact ⟨rfl, rfl, 3, by simp, rfl⟩

lemma filter_flatten_tasks (pick : ℕ → ℕ → ℕ) (store : IndepStore) (qid qIndex : ℕ)
    (c : String) :
    ∀ (cs : List String), cs.Nodup → c ∈ cs →
      (((cs.map (tasksFor pick store qid qIndex)).flatten).filter
        (fun t => decide (t.condition = c))).length =
      (tasksFor pick store qid qIndex c).length := by
  have hcond : ∀ c2 t, t ∈ tasksFor pick store qid qIndex c2 → t.condition = c2 := by
    intro c2 t ht
    rw [tasksFor] at ht
    by_cases hm : conditionMissing pick store qid qIndex c2 = true
    · rw [if_pos hm] at ht; simp at ht
    · rw [if_neg hm] at ht
      simp only [List.mem_cons, List.mem_singleton, List.not_mem_nil, or_false] at ht
      rcases ht with rfl | rfl | rfl <;> rfl
  have hnone : ∀ (cs : List String), c ∉ cs →
      ((cs.map (tasksFor pick store qid qIndex)).flatten).filter
        (fun t => decide (t.condition = c)) = [] := by
    intro cs hnc
    apply List.filter_eq_nil_iff.mpr
    intro t ht
    simp only [List.mem_flatten, List.mem_map] at ht
    obtain ⟨block, ⟨c2, hc2, rfl⟩, htb⟩ := ht
    have hcnd := hcond c2 t htb
    simp only [decide_eq_true_eq]
    intro hct
    have hc2c : c2 = c := by rw [← hcnd, hct]
    rw [hc2c] at hc2
    exact hnc hc2
  intro cs
  induction cs with
  | nil => intro _ hmem; simp at hmem
  | cons c2 cs ih =>
    intro hnd hmem
    simp only [List.nodup_cons] at hnd
    rw [List.map_cons, List.flatten_cons, List.filter_append, List.length_append]
    by_cases hcc : c2 = c
    · subst hcc
      have hself : (tasksFor pick store qid qIndex c2).filter
          (fun t => decide (t.condition = c2)) = tasksFor pick store qid qIndex c2 := by
        apply List.filter_eq_self.mpr
        intro t ht
        simp [hcond c2 t ht]
      rw [hself, hnone cs hnd.1]
      simp
    · have hblock : (tasksFor pick store qid qIndex c2).filter
          (fun t => decide (t.condition = c)) = [] := by
        apply List.filter_eq_nil_iff.mpr
        intro t ht
        simp only [decide_eq_true_eq]
        rw [hcond c2 t ht]
        exact hcc
      rw [hblock]
      simp only [List.length_nil, Nat.zero_add]
      rcases List.mem_cons.mp hmem with heq | hmem2
      · exact absurd heq.symm hcc
      · exact ih hnd.2 hmem2

lemma retryLoopAux_results {τ : Type} [DecidableEq τ] (exec : ℕ → τ → Status)
    (fid : τ → String) :
    ∀ (fuel rc : ℕ) (pending : List τ) (acc : List TaskRes) (d : ℕ),
      ∀ r ∈ (retryLoopAux exec fid fuel rc pending acc d).1,
        r ∈ acc ∨ ∃ t ∈ pending, r.forecastId = fid t := by
  intro fuel
  induction fuel with
  | zero => intro rc pending acc d r hr; exact Or.inl hr
  | succ fuel ih =>
    intro rc pending acc d r hr
    rw [retryLoopAux] at hr
    by_cases hp : pending = []
    · rw [if_pos hp] at hr
      exact Or.inl hr
    · rw [if_neg hp] at hr
      set results := pending.map (fun t => TaskRes.mk (exec rc t) (fid t)) with hres
      have hmemres : ∀ x ∈ results, ∃ t ∈ pending, x.forecastId = fid t := by
        intro x hx
        rw [hres] at hx
        rcases List.mem_map.mp hx with ⟨t, htp, rfl⟩
        exact ⟨t, htp, rfl⟩
      by_cases hf : results.filter (fun r => statusFailed r.status) = []
      · rw [if_pos hf] at hr
        rcases List.mem_append.mp hr with h1 | h2
        · exact Or.inl h1
        · exact Or.inr (hmemres r (List.mem_of_mem_filter h2))
      · rw [if_neg hf] at hr
        rcases ih (rc + 1) _ _ (d + 1) r hr with h1 | ⟨t, htp, hid⟩
        · rcases List.mem_append.mp h1 with h2 | h3
          · exact Or.inl h2
          · exact Or.inr (hmemres r (List.mem_of_mem_filter h3))
        · exact Or.inr ⟨t, List.mem_of_mem_filter htp, hid⟩

lemma retryLoopAux_pending_subset {τ : Type} [DecidableEq τ] (exec : ℕ → τ → Status)
    (fid : τ → String) :
    ∀ (fuel rc : ℕ) (pending : List τ) (acc : List TaskRes) (d : ℕ),
      ∀ t ∈ (retryLoopAux exec fid fuel rc pending acc d).2.1, t ∈ pending := by
  intro fuel
  induction fuel with
  | zero => intro rc pending acc d t ht; exact ht
  | succ fuel ih =>
    intro rc pending acc d t ht
    rw [retryLoopAux] at ht
    by_cases hp : pending = []
    · rw [if_pos hp] at ht; exact ht
    · rw [if_neg hp] at ht
      by_cases hf : (pending.map (fun t => TaskRes.mk (exec rc t) (fid t))).filter
          (fun r => statusFailed r.status) = []
      · rw [if_pos hf] at ht
        simp at ht
      · rw [if_neg hf] at ht
        exact List.mem_of_mem_filter (ih (rc + 1) _ _ (d + 1) t ht)

/-- C5: dependency integrity of the deliberative stage.  Every collected
task carries three present independent results; a condition with any
missing independent result contributes no task at all and is counted in
skipped (3 per missing condition); a condition with all results present
contributes exactly its 3 positioned tasks; and every outcome the
scheduler ever reports for the question, for any execution behaviour,
names a collected task, so no deliberative result is ever produced for a
group with an absent independent result. -/
theorem dependency_integrity (pick : ℕ → ℕ → ℕ) (store : IndepStore) (qid qIndex : ℕ) :
    (∀ t ∈ (collectTasks pick store qid qIndex).1,
        ∀ f ∈ t.independentForecasts, f.isSome = true) ∧
    (∀ c ∈ CONDITIONS, conditionMissing pick store qid qIndex c = true →
        ∀ t ∈ (collectTasks pick store qid qIndex).1, t.condition ≠ c) ∧
    (∀ c ∈ CONDITIONS, conditionMissing pick store qid qIndex c = false →
        ((collectTasks pick store qid qIndex).1.filter
          (fun t => decide (t.condition = c))).length = 3) ∧
    ((collectTasks pick store qid qIndex).2 =
        3 * CONDITIONS.countP (conditionMissing pick store qid qIndex)) ∧
    (∀ (exec : ℕ → DelibTask → Status),
        ∀ r ∈ (processQuestionDeliberative pick store exec qid qIndex).results,
          ∃ t ∈ (collectTasks pick store qid qIndex).1, r.forecastId = t.forecastId) := by
  refine ⟨?_, ?_, ?_, ?_, ?_⟩
  · intro t ht f hf
    obtain ⟨c, _, hm, _, hind, _⟩ := mem_collectTasks pick store qid qIndex t ht
    rw [hind] at hf
    have hany := hm
    rw [conditionMissing] at hany
    rw [List.any_eq_false] at hany
    have hnn := hany f hf
    cases f with
    | none => exact absurd rfl hnn
    | some v => rfl
  · intro c _ hmiss t ht
    obtain ⟨c2, _, hm2, hcond, _, _⟩ := mem_collectTasks pick store qid qIndex t ht
    rw [hcond]
    intro heq
    rw [heq] at hm2
    rw [hm2] at hmiss
    exact Bool.false_ne_true hmiss
  · intro c hc hm
    rw [collectTasks, collect_foldl, List.nil_append]
    rw [filter_flatten_tasks pick store qid qIndex c CONDITIONS (by decide) hc]
    simp [tasksFor, hm]
  · rw [collectTasks, collect_foldl]
    simp
  · intro exec r hr
    rw [processQuestionDeliberative] at hr
    by_cases hemp : (collectTasks pick store qid qIndex).1 = []
    · rw [if_pos hemp] at hr
      simp at hr
    · rw [if_neg hemp] at hr
      simp only [List.mem_append, List.mem_map] at hr
      rcases hr with h1 | ⟨t, htp, rfl⟩
      · rcases retryLoopAux_results exec (fun t => t.forecastId)
          MAX_RETRIES_PER_QUESTION 0 (collectTasks pick store qid qIndex).1 [] 0 r h1 with
          h2 | ⟨t, htp, hid⟩
        · simp at h2
        · exact ⟨t, htp, hid⟩
      · refine ⟨t, ?_, rfl⟩
        exact retryLoopAux_pending_subset exec (fun t => t.forecastId)
          MAX_RETRIES_PER_QUESTION 0 (collectTasks pick store qid qIndex).1 [] 0 t htp

/-- A seeded index function that always picks index 0. -/
def pick0 : ℕ → ℕ → ℕ := fun _ _ => 0

/-- A sample forecast object. -/
def sampleObj : ForecastObj := ⟨50, "r"⟩

/-- A sample stored independent result. -/
def sampleIndep : StoredIndep := ⟨"x", 1, "pro", "full", none, "", sampleObj, ""⟩

/-- A store holding exactly the three diverse_full independent results of
question 1 and nothing else. -/
def store0 : IndepStore := fun p =>
  if p = indepPath "1-pro-full" ∨ p = indepPath "1-sonnet-full" ∨
      p = indepPath "1-gpt5-full" then some sampleIndep
  else none

/-- C5 witness: on the store holding only the diverse_full group of
question 1, the homo_full condition is missing and contributes no task,
while diverse_full is complete and contributes exactly 3 tasks. -/
theorem dependency_integrity_witness :
    ("homo_full" ∈ CONDITIONS) ∧
    conditionMissing pick0 store0 1 0 "homo_full" = true ∧
    (∀ t ∈ (collectTasks pick0 store0 1 0).1, t.condition ≠ "homo_full") ∧
    conditionMissing pick0 store0 1 0 "diverse_full" = false ∧
    ((collectTasks pick0 store0 1 0).1.filter
      (fun t => decide (t.condition = "diverse_full"))).length = 3 :=
  ⟨by decide, by decide,
    (dependency_integrity pick0 store0 1 0).2.1 "homo_full" (by decide) (by decide),
    by decide,
    (dependency_integrity pick0 store0 1 0).2.2.1 "diverse_full" (by decide) (by decide)⟩

/-- Array.prototype.join with a separator, as used for information
packages and by the CSV writer. -/
def joinWith (sep : String) : List String → String
  | [] => ""
  | [x] => x
  | x :: y :: xs => x ++ sep ++ joinWith sep (y :: xs)

/-- getInformation from the independent stage driver (lines 96-106): maps
an information label to the text supplied to the agent; the throwing
default case is modelled as none, which propagates as in the source the
uncaught exception would (the existence check runs before this, the try
block after).  The corpus supplies exactly 3 packages, so the indexed
cases are always in range there. -/
def getInformation (question : Question) (infoLabel : String) : Option String :=
  if infoLabel = "none" then some "No additional information available."
  else if infoLabel = "full" then some (joinWith "\n\n" question.informationPackages)
  else if infoLabel = "info1" then some (question.informationPackages.getD 0 "")
  else if infoLabel = "info2" then some (question.informationPackages.getD 1 "")
  else if infoLabel = "info3" then some (question.informationPackages.getD 2 "")
  else none

/-- The value returned by independentForecastingAgent, restricted to the
fields generateSingleForecast reads. -/
structure IndepAgentResult where
  id : String
  object : ForecastObj
  prompt : String
deriving DecidableEq

/-- The Forecasting Service of the independent stage, as an oracle that
either returns an agent result or fails with an error message. -/
abbrev IndepService : Type :=
  Question → String → AgentSpec → Except String IndepAgentResult

/-- Outcome of one task execution, together with a ghost counter of the
calls made to the Forecasting Service (0 or 1), present only so theorems
can state that no external call happened. -/
structure ExecOutcome where
  status : Status
  forecastId : String
  errorMsg : Option String
  calls : ℕ
deriving DecidableEq

/-- fs.writeFileSync on the independent artifact store. -/
def storeWriteIndep (store : IndepStore) (k : String) (v : StoredIndep) : IndepStore :=
  fun p => if p = k then some v else store p

/-- The result record generateSingleForecast assembles before writing
(lines 133-142 of the independent stage driver). -/
def independentRecord (q : Question) (req : AgentSpec) (information : String)
    (ar : IndepAgentResult) : StoredIndep :=
  ⟨ar.id, q.id, req.model, req.infoLabel, req.inst, information, ar.object, ar.prompt⟩

/-- generateSingleForecast from the independent stage driver
(lines 112-150): short-circuit to cached when the output file exists,
otherwise compute the information text, call the service inside the try,
write the record only on success, and report an error outcome on failure
with the store untouched. -/
def generateSingleForecast (svc : IndepService) (store : IndepStore) (q : Question)
    (req : AgentSpec) : Option (ExecOutcome × IndepStore) :=
  let fid := forecastIdOf q.id req
  let outputFile := indepPath fid
  if (store outputFile).isSome then some (⟨.cached, fid, none, 0⟩, store)
  else
    match getInformation q req.infoLabel with
    | none => none
    | some information =>
      match svc q information req with
      | .error msg => some (⟨.error, fid, some msg, 1⟩, store)
      | .ok ar =>
        some (⟨.success, fid, none, 1⟩,
          storeWriteIndep store outputFile (independentRecord q req information ar))

/-- One dispatch round over a list of requests, with the store threaded
sequentially (the single orchestrator process is the only writer). -/
def runForecastRound (svc : IndepService) (store : IndepStore) (q : Question) :
    List AgentSpec → Option (List ExecOutcome × IndepStore)
  | [] => some ([], store)
  | r :: rs =>
    match generateSingleForecast svc store q r with
    | none => none
    | some (o, store2) =>
      match runForecastRound svc store2 q rs with
      | none => none
      | some (os, store3) => some (o :: os, store3)

/-- The structured object returned by the deliberative agent. -/
structure DelibObj where
  review : String
  rationale : String
  probability : ℚ
deriving DecidableEq

/-- The result record the deliberative agent returns and
generateSingleDeliberativeForecast writes. -/
structure StoredDelib where
  forecastId : String
  questionId : ℕ
  condition : String
  model : String
  position : ℕ
  infoLabel : String
  groupId : String
  independentForecastId : String
  otherForecastIds : List String
  forecast : DelibObj
deriving DecidableEq

/-- The artifact store of the deliberative stage. -/
abbrev DelibStore : Type := String → Option StoredDelib

/-- Output path of a deliberative forecast file. -/
def delibPath (fid : String) : String :=
  "data/deliberative-forecasts/" ++ fid ++ ".json"

/-- fs.writeFileSync on the deliberative artifact store. -/
def storeWriteDelib (store : DelibStore) (k : String) (v : StoredDelib) : DelibStore :=
  fun p => if p = k then some v else store p

/-- parseInt(label.slice(-1)): the numeric value of the last character of
an information label. -/
def labelIndex (label : String) : ℕ :=
  (label.data.getLastD '0').toNat - '0'.toNat

/-- The information text computed by generateSingleDeliberativeForecast
(lines 129-133 of the deliberative stage driver). -/
def delibInformation (q : Question) (agent : AgentSpec) : String :=
  if agent.infoLabel = "full" then joinWith "\n\n" q.informationPackages
  else if agent.infoLabel = "none" then "No additional information available."
  else q.informationPackages.getD (labelIndex agent.infoLabel - 1) ""

/-- The Forecasting Service of the deliberative stage: question, text, own
forecast, peer forecasts, model, condition, position, returning the stored
record or failing; a failure also covers the argument validation the agent
itself throws inside the try. -/
abbrev DelibService : Type :=
  Question → String → Option StoredIndep → List (Option StoredIndep) →
    String → String → ℕ → Except String StoredDelib

/-- generateSingleDeliberativeForecast from the deliberative stage driver
(lines 115-152): cached short-circuit, own and peer forecast selection by
position, information selection, the call inside the try, write only on
success. -/
def generateSingleDeliberativeForecast (svcD : DelibService) (store : DelibStore)
    (q : Question) (condition : String) (groupComposition : List AgentSpec)
    (independentForecasts : List (Option StoredIndep)) (position : ℕ) :
    ExecOutcome × DelibStore :=
  let agent := groupComposition.getD (position - 1) default
  let fid := delibForecastIdOf q.id condition groupComposition position
  let outputFile := delibPath fid
  if (store outputFile).isSome then (⟨.cached, fid, none, 0⟩, store)
  else
    let ownForecast := independentForecasts.getD (position - 1) none
    let otherForecasts :=
      (independentForecasts.enum.filter (fun p => decide (p.1 ≠ position - 1))).map
        (fun p => p.2)
    let information := delibInformation q agent
    match svcD q information ownForecast otherForecasts agent.model condition position with
    | .error msg => (⟨.error, fid, some msg, 1⟩, store)
    | .ok result => (⟨.success, fid, none, 1⟩, storeWriteDelib store outputFile result)

/-- C6: cache idempotence.  A task whose result is already stored returns
a cached outcome with zero service calls and the store unchanged, in both
stages; hence a whole round over requests that are all already stored
makes zero service calls, returns all-cached outcomes, and leaves every
stored record byte-identical (the store is returned unchanged). -/
theorem cache_idempotence :
    (∀ (svc : IndepService) (store : IndepStore) (q : Question) (req : AgentSpec),
        (store (indepPath (forecastIdOf q.id req))).isSome = true →
        generateSingleForecast svc store q req =
          some (⟨.cached, forecastIdOf q.id req, none, 0⟩, store)) ∧
    (∀ (svc : IndepService) (store : IndepStore) (q : Question) (reqs : List AgentSpec),
        (∀ r ∈ reqs, (store (indepPath (forecastIdOf q.id r))).isSome = true) →
        runForecastRound svc store q reqs =
          some (reqs.map (fun r => ⟨.cached, forecastIdOf q.id r, none, 0⟩), store)) ∧
    (∀ (svcD : DelibService) (store : DelibStore) (q : Question) (c : String)
        (comp : List AgentSpec) (indeps : List (Option StoredIndep)) (pos : ℕ),
        (store (delibPath (delibForecastIdOf q.id c comp pos))).isSome = true →
        generateSingleDeliberativeForecast svcD store q c comp indeps pos =
          (⟨.cached, delibForecastIdOf q.id c comp pos, none, 0⟩, store)) := by
  refine ⟨?_, ?_, ?_⟩
  · intro svc store q req h
    simp [generateSingleForecast, h]
  · intro svc store q reqs
    induction reqs with
    | nil => intro _; rfl
    | cons r rs ih =>
      intro h
      have h1 : generateSingleForecast svc store q r =
          some (⟨.cached, forecastIdOf q.id r, none, 0⟩, store) := by
        simp [generateSingleForecast, h r (by simp)]
      rw [runForecastRound, h1]
      dsimp only
      rw [ih (fun r2 hr2 => h r2 (by simp [hr2]))]
      rfl
  · intro svcD store q c comp indeps pos h
    simp [generateSingleDeliberativeForecast, h]

/-- C10: store unchanged on error.  In both stages, when the output file
is absent and the forecasting call fails, the executor returns an error
outcome carrying the task identifier and the store is returned exactly as
it was; the record is written if and only if the call succeeds. -/
theorem store_unchanged_on_error :
    (∀ (svc : IndepService) (store : IndepStore) (q : Question) (req : AgentSpec)
        (information msg : String),
        store (indepPath (forecastIdOf q.id req)) = none →
        getInformation q req.infoLabel = some information →
        svc q information req = .error msg →
        generateSingleForecast svc store q req =
          some (⟨.error, forecastIdOf q.id req, some msg, 1⟩, store)) ∧
    (∀ (svc : IndepService) (store : IndepStore) (q : Question) (req : AgentSpec)
        (information : String) (ar : IndepAgentResult),
        store (indepPath (forecastIdOf q.id req)) = none →
        getInformation q req.infoLabel = some information →
        svc q information req = .ok ar →
        generateSingleForecast svc store q req =
          some (⟨.success, forecastIdOf q.id req, none, 1⟩,
            storeWriteIndep store (indepPath (forecastIdOf q.id req))
              (independentRecord q req information ar))) ∧
    (∀ (svcD : DelibService) (store : DelibStore) (q : Question) (c : String)
        (comp : List AgentSpec) (indeps : List (Option StoredIndep)) (pos : ℕ)
        (msg : String),
        store (delibPath (delibForecastIdOf q.id c comp pos)) = none →
        svcD q (delibInformation q (comp.getD (pos - 1) default))
          (indeps.getD (pos - 1) none)
          ((indeps.enum.filter (fun p => decide (p.1 ≠ pos - 1))).map (fun p => p.2))
          (comp.getD (pos - 1) default).model c pos = .error msg →
        generateSingleDeliberativeForecast svcD store q c comp indeps pos =
          (⟨.error, delibForecastIdOf q.id c comp pos, some msg, 1⟩, store)) := by
  refine ⟨?_, ?_, ?_⟩
  · intro svc store q req information msg hs hi hc
    simp [generateSingleForecast, hs, hi, hc]
  · intro svc store q req information ar hs hi hc
    simp [generateSingleForecast, hs, hi, hc]
  · intro svcD store q c comp indeps pos msg hs hc
    unfold generateSingleDeliberativeForecast
    rw [if_neg (by simp [hs])]
    dsimp only
    rw [hc]

/-- A service that always fails. -/
def svcErr : IndepService := fun _ _ _ => .error "e"

/-- A deliberative service that always fails. -/
def svcDErr : DelibService := fun _ _ _ _ _ _ _ => .error "e"

/-- A concrete question with three information packages. -/
def q1 : Question := ⟨1, "t", "d", "rc", "fp", "2025-01-01", "yes", ["a", "b", "c"]⟩

/-- A store holding exactly the pro-full independent result of question 1. -/
def store1 : IndepStore := fun p =>
  if p = indepPath "1-pro-full" then some sampleIndep else none

/-- A sample stored deliberative result. -/
def sampleDelib : StoredDelib :=
  ⟨"1-diverse_full-pro-1", 1, "diverse_full", "pro", 1, "full", "1-diverse_full",
    "1-pro-full", [], ⟨"", "", 50⟩⟩

/-- A deliberative store holding exactly one result file. -/
def dstore1 : DelibStore := fun p =>
  if p = delibPath "1-diverse_full-pro-1" then some sampleDelib else none

/-- The diverse_full group composition. -/
def compDF : List AgentSpec :=
  [⟨"pro", "full", none⟩, ⟨"sonnet", "full", none⟩, ⟨"gpt5", "full", none⟩]

/-- An empty independent store. -/
def storeEmptyI : IndepStore := fun _ => none

/-- An empty deliberative store. -/
def storeEmptyD : DelibStore := fun _ => none

/-- C6 witness: with the relevant files present, both executors return
cached with zero calls and an unchanged store, and a whole round over an
all-present request list is all-cached with the store returned as is. -/
theorem cache_idempotence_witness :
    ((store1 (indepPath (forecastIdOf q1.id req0))).isSome = true) ∧
    generateSingleForecast svcErr store1 q1 req0 =
      some (⟨.cached, forecastIdOf q1.id req0, none, 0⟩, store1) ∧
    runForecastRound svcErr store1 q1 [req0] =
      some ([req0].map (fun r => ⟨.cached, forecastIdOf q1.id r, none, 0⟩), store1) ∧
    ((dstore1 (delibPath (delibForecastIdOf q1.id "diverse_full" compDF 1))).isSome = true) ∧
    generateSingleDeliberativeForecast svcDErr dstore1 q1 "diverse_full" compDF [] 1 =
      (⟨.cached, delibForecastIdOf q1.id "diverse_full" compDF 1, none, 0⟩, dstore1) :=
  ⟨by decide,
   cache_idempotence.1 svcErr store1 q1 req0 (by decide),
   cache_idempotence.2.1 svcErr store1 q1 [req0]
     (by intro r hr; rw [List.mem_singleton] at hr; subst hr; decide),
   by decide,
   cache_idempotence.2.2 svcDErr dstore1 q1 "diverse_full" compDF [] 1 (by decide)⟩

/-- C10 witness: with an empty store and a failing service, both executors
return an error outcome with the task identifier and the store exactly as
it was. -/
theorem store_unchanged_on_error_witness :
    (storeEmptyI (indepPath (forecastIdOf q1.id req0)) = none) ∧
    getInformation q1 req0.infoLabel = some "a\n\nb\n\nc" ∧
    svcErr q1 "a\n\nb\n\nc" req0 = .error "e" ∧
    generateSingleForecast svcErr storeEmptyI q1 req0 =
      some (⟨.error, forecastIdOf q1.id req0, some "e", 1⟩, storeEmptyI) ∧
    generateSingleDeliberativeForecast svcDErr storeEmptyD q1 "diverse_full" compDF [] 1 =
      (⟨.error, delibForecastIdOf q1.id "diverse_full" compDF 1, some "e", 1⟩, storeEmptyD) :=
  ⟨rfl, by decide, rfl,
   store_unchanged_on_error.1 svcErr storeEmptyI q1 req0 "a\n\nb\n\nc" "e" rfl (by decide) rfl,
   store_unchanged_on_error.2.2 svcDErr storeEmptyD q1 "diverse_full" compDF [] 1 "e" rfl rfl⟩

lemma getD_three {α : Type} (d : α) (l : List α) (h : l.length = 3) :
    [l.getD 0 d, l.getD 1 d, l.getD 2 d] = l := by
  match l, h with
  | [a, b, c], _ => rfl

/-- C9: seededShuffle is a pure permutation.  Under the range guarantee of
the seeded index source (seededRandom lies in the interval from 0 to 1, so
the picked index is always below the current bound), the shuffle of any
array with any seed is a permutation of the array of the same length, and
consequently the diverse_info composition assigns each of the three models
exactly once and each of the three information labels exactly once. -/
theorem seededShuffle_permutation_claim {α : Type} (pick : ℕ → ℕ → ℕ)
    (_hp : ∀ s m, 0 < m → pick s m < m) (l : List α) (seed qid qi : ℕ) :
    (seededShuffle pick l seed).Perm l ∧
    (seededShuffle pick l seed).length = l.length ∧
    ∃ specs, getGroupComposition pick "diverse_info" qid qi = some specs ∧
      (specs.map (fun s => s.model)).Perm MODELS ∧
      (specs.map (fun s => s.infoLabel)).Perm ["info1", "info2", "info3"] := by
  refine ⟨seededShuffle_perm pick l seed, seededShuffle_length pick l seed,
    _, ggc_diverse_info pick qid qi, ?_, ?_⟩
  · have hm := seededShuffle_perm pick MODELS (qid + 1)
    have hlen : (seededShuffle pick MODELS (qid + 1)).length = 3 := by
      rw [seededShuffle_length]
      rfl
    simp only [List.map_cons, List.map_nil]
    rw [getD_three "" (seededShuffle pick MODELS (qid + 1)) hlen]
    exact hm
  · have hm := seededShuffle_perm pick ["info1", "info2", "info3"] qid
    have hlen : (seededShuffle pick ["info1", "info2", "info3"] qid).length = 3 := by
      rw [seededShuffle_length]
      rfl
    simp only [List.map_cons, List.map_nil]
    rw [getD_three "" (seededShuffle pick ["info1", "info2", "info3"] qid) hlen]
    exact hm

/-- C9 witness: the permutation claim instantiated at the constantly-zero
index source, which satisfies the range hypothesis. -/
theorem seededShuffle_permutation_claim_witness :
    (∀ s m, 0 < m → pick0 s m < m) ∧
    ((seededShuffle pick0 (["a", "b", "c"] : List String) 7).Perm ["a", "b", "c"] ∧
     (seededShuffle pick0 (["a", "b", "c"] : List String) 7).length =
       (["a", "b", "c"] : List String).length ∧
     ∃ specs, getGroupComposition pick0 "diverse_info" 3 1 = some specs ∧
       (specs.map (fun s => s.model)).Perm MODELS ∧
       (specs.map (fun s => s.infoLabel)).Perm ["info1", "info2", "info3"]) :=
  ⟨fun _ _ h => h,
   seededShuffle_permutation_claim pick0 (fun _ _ h => h) ["a", "b", "c"] 7 3 1⟩

/-- The value stored in questionMap by buildDataset: id, title, and the
resolution coded 1 for yes and 0 otherwise. -/
structure QInfo where
  id : ℕ
  title : String
  resolution : ℕ
deriving DecidableEq

/-- Lookup in questionMap: the for loop assigns questionMap of the id for
every question, so a duplicated id keeps the last record. -/
def questionLookup (questions : List Question) (qid : ℕ) : Option QInfo :=
  ((questions.filter (fun q => decide (q.id = qid))).getLast?).map
    (fun q => ⟨q.id, q.questionTitle, if q.resolution = "yes" then 1 else 0⟩)

/-- Lookup in independentMap, keyed by forecastId, last record wins. -/
def independentLookup (indeps : List StoredIndep) (fid : String) : Option StoredIndep :=
  (indeps.filter (fun f => decide (f.forecastId = fid))).getLast?

/-- A row of the forecasts table; position is empty for independent rows. -/
structure ForecastRow where
  question_id : ℕ
  resolution : ℕ
  forecast_id : String
  stage : String
  condition : String
  model : String
  info_label : String
  position : Option ℕ
  probability : ℚ
deriving DecidableEq

/-- A row of the condition_pairs table. -/
structure ConditionRow where
  question_id : ℕ
  resolution : ℕ
  condition : String
  model : String
  info_label : String
  position : ℕ
  independent_forecast_id : String
  deliberative_forecast_id : String
  independent_prob : ℚ
  deliberative_prob : ℚ
deriving DecidableEq

/-- A row of the questions table. -/
structure QuestionRow where
  question_id : ℕ
  resolution : ℕ
  title : String
deriving DecidableEq

/-- The grouping key questionId-condition of deliberativeByQC. -/
def groupKey (d : StoredDelib) : String := toString d.questionId ++ "-" ++ d.condition

/-- One step of building deliberativeByQC: append to the existing entry of
the key, or create a new entry at the end (JavaScript object insertion
order for these non-index keys). -/
def insertGroup (groups : List (String × List StoredDelib)) (d : StoredDelib) :
    List (String × List StoredDelib) :=
  if groups.any (fun g => decide (g.1 = groupKey d)) then
    groups.map (fun g => if g.1 = groupKey d then (g.1, g.2 ++ [d]) else g)
  else groups ++ [(groupKey d, [d])]

/-- deliberativeByQC from buildDataset (lines 111-116). -/
def groupByQC (delibs : List StoredDelib) : List (String × List StoredDelib) :=
  delibs.foldl insertGroup []

/-- The forecast row of an independent result (lines 72-87). -/
def mkIndepForecastRow (q : QInfo) (f : StoredIndep) : ForecastRow :=
  ⟨f.questionId, q.resolution, f.forecastId, "independent", "", f.model, f.infoLabel,
    none, f.forecast.probability⟩

/-- The forecast row of a deliberative result (lines 90-105). -/
def mkDelibForecastRow (q : QInfo) (f : StoredDelib) : ForecastRow :=
  ⟨f.questionId, q.resolution, f.forecastId, "deliberative", f.condition, f.model,
    f.infoLabel, some f.position, f.forecast.probability⟩

/-- One condition pair row (lines 136-147). -/
def mkConditionRow (qid : ℕ) (condition : String) (q : QInfo) (df : StoredDelib)
    (indF : StoredIndep) : ConditionRow :=
  ⟨qid, q.resolution, condition, df.model, df.infoLabel, df.position,
    df.independentForecastId, df.forecastId, indF.forecast.probability,
    df.forecast.probability⟩

/-- The forecasts table: independent rows then deliberative rows, skipping
results whose question id is not in the corpus. -/
def forecastRowsOf (questions : List Question) (independentForecasts : List StoredIndep)
    (deliberativeForecasts : List StoredDelib) : List ForecastRow :=
  independentForecasts.filterMap
    (fun f => (questionLookup questions f.questionId).map (fun q => mkIndepForecastRow q f)) ++
  deliberativeForecasts.filterMap
    (fun f => (questionLookup questions f.questionId).map (fun q => mkDelibForecastRow q f))

/-- The condition_pairs table: per group, with question id and condition
read from the first member, rows only for members whose referenced
independent result is found; groups with unknown question ids contribute
nothing.  The source also assembles a set of linked independent ids in
lines 125-129 that it never reads again; that dead computation is not
modelled. -/
def conditionRowsOf (questions : List Question) (independentForecasts : List StoredIndep)
    (deliberativeForecasts : List StoredDelib) : List ConditionRow :=
  ((groupByQC deliberativeForecasts).map (fun g =>
    match g.2 with
    | [] => []
    | d0 :: _ =>
      match questionLookup questions d0.questionId with
      | none => []
      | some q =>
        g.2.filterMap (fun df =>
          (independentLookup independentForecasts df.independentForecastId).map
            (mkConditionRow d0.questionId d0.condition q df)))).flatten

/-- The questions table: one row per corpus question id, in the ascending
numeric key order JavaScript gives integer-like object keys. -/
def questionRowsOf (questions : List Question) : List QuestionRow :=
  (((questions.map (fun q => q.id)).dedup.mergeSort (fun a b => decide (a ≤ b))).filterMap
    (fun i => questionLookup questions i)).map (fun q => ⟨q.id, q.resolution, q.title⟩)

/-- The three relational projections of buildDataset. -/
structure Dataset where
  forecastRows : List ForecastRow
  conditionRows : List ConditionRow
  questionRows : List QuestionRow
deriving DecidableEq

/-- buildDataset from build-analysis-dataset.js (lines 39-158). -/
def buildDataset (questions : List Question) (independentForecasts : List StoredIndep)
    (deliberativeForecasts : List StoredDelib) : Dataset :=
  ⟨forecastRowsOf questions independentForecasts deliberativeForecasts,
   conditionRowsOf questions independentForecasts deliberativeForecasts,
   questionRowsOf questions⟩

lemma conditionRows_mem (questions : List Question) (indeps : List StoredIndep)
    (delibs : List StoredDelib) (row : ConditionRow)
    (hrow : row ∈ conditionRowsOf questions indeps delibs) :
    ∃ (df : StoredDelib) (indF : StoredIndep),
      independentLookup indeps df.independentForecastId = some indF ∧
      row.independent_forecast_id = df.independentForecastId ∧
      row.deliberative_forecast_id = df.forecastId := by
  rw [conditionRowsOf] at hrow
  simp only [List.mem_flatten, List.mem_map] at hrow
  obtain ⟨block, ⟨g, hg, rfl⟩, hb⟩ := hrow
  rcases hg2 : g.2 with _ | ⟨d0, rest⟩
  · rw [hg2] at hb
    simp at hb
  · rw [hg2] at hb
    dsimp only at hb
    rcases hql : questionLookup questions d0.questionId with _ | q
    · rw [hql] at hb
      simp at hb
    · rw [hql] at hb
      dsimp only at hb
      rcases List.mem_filterMap.mp hb with ⟨df, hdf, hmap⟩
      rcases hil : independentLookup indeps df.independentForecastId with _ | indF
      · rw [hil] at hmap
        exact Option.noConfusion hmap
      · rw [hil] at hmap
        have hmap2 : mkConditionRow d0.questionId d0.condition q df indF = row := by
          simpa using hmap
        subst hmap2
        exact ⟨df, indF, hil, rfl, rfl⟩

/-- A concrete independent result with probability 70. -/
def if1 : StoredIndep := ⟨"1-pro-full", 1, "pro", "full", none, "", ⟨70, "ra"⟩, ""⟩

/-- A concrete deliberative result with probability 65 referencing if1. -/
def df1 : StoredDelib :=
  ⟨"1-diverse_full-pro-1", 1, "diverse_full", "pro", 1, "full", "1-diverse_full",
    "1-pro-full", [], ⟨"rev", "ra2", 65⟩⟩

/-- C7: join correctness of the dataset reducer.  On the corpus with one
yes question, one independent result with probability 70 and one
deliberative result referencing it with probability 65, the condition
pairs table is exactly the row with independent_prob 70, deliberative_prob
65 and resolution 1, and the forecasts table is exactly the two rows for
that question tagged independent and deliberative.  In general, a
deliberative result whose referenced independent result is absent yields
no condition pair row, while its forecast row is still emitted whenever
its question is in the corpus. -/
theorem dataset_join_correctness :
    ((buildDataset [q1] [if1] [df1]).conditionRows =
      [⟨1, 1, "diverse_full", "pro", "full", 1, "1-pro-full", "1-diverse_full-pro-1",
        70, 65⟩]) ∧
    ((buildDataset [q1] [if1] [df1]).forecastRows =
      [⟨1, 1, "1-pro-full", "independent", "", "pro", "full", none, 70⟩,
       ⟨1, 1, "1-diverse_full-pro-1", "deliberative", "diverse_full", "pro", "full",
        some 1, 65⟩]) ∧
    (∀ (questions : List Question) (indeps : List StoredIndep)
        (delibs : List StoredDelib) (d : StoredDelib), d ∈ delibs →
        independentLookup indeps d.independentForecastId = none →
        (∀ row ∈ (buildDataset questions indeps delibs).conditionRows,
            ¬(row.deliberative_forecast_id = d.forecastId ∧
              row.independent_forecast_id = d.independentForecastId)) ∧
        ((questionLookup questions d.questionId).isSome = true →
          ∃ row ∈ (buildDataset questions indeps delibs).forecastRows,
            row.forecast_id = d.forecastId ∧ row.stage = "deliberative")) := by
  refine ⟨by decide, by decide, ?_⟩
  intro questions indeps delibs d hd hnone
  constructor
  · intro row hrow hpair
    obtain ⟨df, indF, hil, hid, _⟩ := conditionRows_mem questions indeps delibs row hrow
    rw [hpair.2] at hid
    rw [← hid] at hil
    rw [hnone] at hil
    exact Option.noConfusion hil
  · intro hq
    match hql : questionLookup questions d.questionId with
    | none => rw [hql] at hq; exact Bool.noConfusion hq
    | some q =>
      refine ⟨mkDelibForecastRow q d, ?_, rfl, rfl⟩
      show mkDelibForecastRow q d ∈ forecastRowsOf questions indeps delibs
      rw [forecastRowsOf]
      apply List.mem_append.mpr
      right
      apply List.mem_filterMap.mpr
      exact ⟨d, hd, by rw [hql]; rfl⟩

/-- C7 witness: the general missing-join statement instantiated on the
one-question corpus with no independent results at all: the deliberative
result df1 yields no condition pair row while its forecast row is still
present. -/
theorem dataset_join_correctness_witness :
    (df1 ∈ [df1]) ∧
    independentLookup [] df1.independentForecastId = none ∧
    (∀ row ∈ (buildDataset [q1] [] [df1]).conditionRows,
        ¬(row.deliberative_forecast_id = df1.forecastId ∧
          row.independent_forecast_id = df1.independentForecastId)) ∧
    (∃ row ∈ (buildDataset [q1] [] [df1]).forecastRows,
        row.forecast_id = df1.forecastId ∧ row.stage = "deliberative") :=
  ⟨by decide, rfl,
   (dataset_join_correctness.2.2 [q1] [] [df1] df1 (by decide) rfl).1,
   (dataset_join_correctness.2.2 [q1] [] [df1] df1 (by decide) rfl).2 (by decide)⟩

/-- A JavaScript field value as toCSV sees it: a string, a number (the
numeric fields of the dataset rows are naturals here), or null slash
undefined. -/
inductive Field where
  | str (s : String)
  | num (n : ℕ)
  | null
deriving DecidableEq

/-- The quoting test of toCSV: the value contains the delimiter, the quote
character, or a line break. -/
def needsQuoting (s : String) : Bool :=
  s.data.any (fun c => decide (c = ',' ∨ c = '"' ∨ c = '\n'))

/-- replace(/"/g, two quotes) at character level. -/
def escapeQuotes : List Char → List Char
  | [] => []
  | c :: cs => if c = '"' then '"' :: '"' :: escapeQuotes cs else c :: escapeQuotes cs

/-- The quoted rendering of a string field value per toCSV. -/
def encodeField (s : String) : String :=
  if needsQuoting s then "\"" ++ String.mk (escapeQuotes s.data) ++ "\"" else s

/-- row[h] on an object modelled as an association list; a missing key is
undefined. -/
def lookupField (row : List (String × Field)) (h : String) : Option Field :=
  (row.find? (fun p => decide (p.1 = h))).map (fun p => p.2)

/-- The cell text toCSV emits for one value: empty for null and undefined,
quoted-when-needed for strings, raw digits for numbers. -/
def renderField : Option Field → String
  | none => ""
  | some .null => ""
  | some (.str s) => encodeField s
  | some (.num n) => Nat.repr n

/-- The plain displayed value of a cell: the original string for string
fields, digits for numbers, empty otherwise. -/
def display : Option Field → String
  | none => ""
  | some .null => ""
  | some (.str s) => s
  | some (.num n) => Nat.repr n

/-- toCSV from build-analysis-dataset.js (lines 20-36): header from the
keys of the first row, one line per row with the values joined by commas,
lines joined by a newline. -/
def toCSV (rows : List (List (String × Field))) : String :=
  match rows with
  | [] => ""
  | row0 :: _ =>
    let headers := row0.map (fun p => p.1)
    let lines := joinWith "," headers ::
      rows.map (fun row => joinWith "," (headers.map (fun h => renderField (lookupField row h))))
    joinWith "\n" lines

/-- Parser state of the standard CSV reader: inside an unquoted cell,
inside a quoted cell, or just after a quote inside a quoted cell. -/
inductive PState where
  | plain
  | quoted
  | quotedQuote
deriving DecidableEq

/-- A standard CSV reader as a character fold: comma-separated cells,
newline-separated records, a quote opening a quoted cell at cell start,
doubled quotes inside a quoted cell standing for one quote. -/
def csvFold : List Char → PState → List Char → List String → List (List String) →
    List (List String)
  | [], _, field, row, acc => acc ++ [row ++ [String.mk field]]
  | c :: rest, .plain, field, row, acc =>
    if c = '"' ∧ field = [] then csvFold rest .quoted field row acc
    else if c = ',' then csvFold rest .plain [] (row ++ [String.mk field]) acc
    else if c = '\n' then csvFold rest .plain [] [] (acc ++ [row ++ [String.mk field]])
    else csvFold rest .plain (field ++ [c]) row acc
  | c :: rest, .quoted, field, row, acc =>
    if c = '"' then csvFold rest .quotedQuote field row acc
    else csvFold rest .quoted (field ++ [c]) row acc
  | c :: rest, .quotedQuote, field, row, acc =>
    if c = '"' then csvFold rest .quoted (field ++ ['"']) row acc
    else if c = ',' then csvFold rest .plain [] (row ++ [String.mk field]) acc
    else if c = '\n' then csvFold rest .plain [] [] (acc ++ [row ++ [String.mk field]])
    else csvFold rest .plain (field ++ [c]) row acc

/-- The reader on a whole document. -/
def parseCSV (s : String) : List (List String) :=
  if s.data = [] then [] else csvFold s.data .plain [] [] []

/-- The encoded text of one record. -/
def encodeLine (vs : List String) : String := joinWith "," (vs.map encodeField)

lemma stringMk_data (s : String) : String.mk s.data = s := rfl

lemma csvFold_eof (st : PState) (field : List Char) (row : List String)
    (acc : List (List String)) :
    csvFold [] st field row acc = acc ++ [row ++ [String.mk field]] := by
  cases st <;> rfl

lemma csvFold_comma (st : PState) (hst : st = PState.plain ∨ st = PState.quotedQuote)
    (rest : List Char) (field : List Char) (row : List String) (acc : List (List String)) :
    csvFold (',' :: rest) st field row acc =
      csvFold rest .plain [] (row ++ [String.mk field]) acc := by
  rcases hst with rfl | rfl <;> simp [csvFold]

lemma csvFold_newline (st : PState) (hst : st = PState.plain ∨ st = PState.quotedQuote)
    (rest : List Char) (field : List Char) (row : List String) (acc : List (List String)) :
    csvFold ('\n' :: rest) st field row acc =
      csvFold rest .plain [] [] (acc ++ [row ++ [String.mk field]]) := by
  rcases hst with rfl | rfl <;> simp [csvFold]

lemma csvFold_escape :
    ∀ (s rest : List Char) (field : List Char) (row : List String) (acc : List (List String)),
      csvFold (escapeQuotes s ++ rest) .quoted field row acc =
        csvFold rest .quoted (field ++ s) row acc := by
  intro s
  induction s with
  | nil => intro rest field row acc; simp [escapeQuotes]
  | cons c cs ih =>
    intro rest field row acc
    by_cases hc : c = '"'
    · subst hc
      rw [escapeQuotes, if_pos rfl, List.cons_append, List.cons_append]
      have hstep : csvFold ('"' :: '"' :: (escapeQuotes cs ++ rest)) .quoted field row acc =
          csvFold (escapeQuotes cs ++ rest) .quoted (field ++ ['"']) row acc := by
        simp [csvFold]
      rw [hstep, ih]
      rw [show (field ++ ['"']) ++ cs = field ++ '"' :: cs by simp]
    · rw [escapeQuotes, if_neg hc, List.cons_append]
      have hstep : csvFold (c :: (escapeQuotes cs ++ rest)) .quoted field row acc =
          csvFold (escapeQuotes cs ++ rest) .quoted (field ++ [c]) row acc := by
        simp [csvFold, hc]
      rw [hstep, ih]
      rw [show (field ++ [c]) ++ cs = field ++ c :: cs by simp]

lemma csvFold_unquoted :
    ∀ (s rest : List Char) (field : List Char) (row : List String) (acc : List (List String)),
      (∀ c ∈ s, ¬(c = ',' ∨ c = '"' ∨ c = '\n')) →
      csvFold (s ++ rest) .plain field row acc = csvFold rest .plain (field ++ s) row acc := by
  intro s
  induction s with
  | nil => intro rest field row acc _; simp
  | cons c cs ih =>
    intro rest field row acc hsafe
    have hc := hsafe c (by simp)
    push_neg at hc
    rw [List.cons_append]
    have hstep : csvFold (c :: (cs ++ rest)) .plain field row acc =
        csvFold (cs ++ rest) .plain (field ++ [c]) row acc := by
      simp [csvFold, hc.1, hc.2.1, hc.2.2]
    rw [hstep, ih _ _ _ _ (fun c2 h2 => hsafe c2 (by simp [h2]))]
    rw [show (field ++ [c]) ++ cs = field ++ c :: cs by simp]

lemma csvFold_encodeField (v : String) (rest : List Char) (row : List String)
    (acc : List (List String)) :
    ∃ st, (st = PState.plain ∨ st = PState.quotedQuote) ∧
      csvFold ((encodeField v).data ++ rest) .plain [] row acc =
        csvFold rest st v.data row acc := by
  by_cases hq : needsQuoting v = true
  · refine ⟨.quotedQuote, Or.inr rfl, ?_⟩
    rw [encodeField, if_pos hq]
    rw [String.data_append, String.data_append]
    have h1 : ("\"" : String).data = ['"'] := rfl
    have h2 : (String.mk (escapeQuotes v.data)).data = escapeQuotes v.data := rfl
    rw [h1, h2]
    simp only [List.append_assoc, List.cons_append, List.singleton_append, List.nil_append]
    have hstep1 : csvFold ('"' :: (escapeQuotes v.data ++ '"' :: rest)) .plain [] row acc =
        csvFold (escapeQuotes v.data ++ '"' :: rest) .quoted [] row acc := by
      simp [csvFold]
    rw [hstep1, csvFold_escape]
    have hstep2 : csvFold ('"' :: rest) .quoted ([] ++ v.data) row acc =
        csvFold rest .quotedQuote ([] ++ v.data) row acc := by
      simp [csvFold]
    rw [hstep2]
    simp
  · have hq2 : needsQuoting v = false := by simpa using hq
    refine ⟨.plain, Or.inl rfl, ?_⟩
    have hq3 : (v.data.any (fun c => decide (c = ',' ∨ c = '"' ∨ c = '\n'))) = false := hq2
    have hsafechars : ∀ c ∈ v.data, ¬(c = ',' ∨ c = '"' ∨ c = '\n') := by
      intro c hcmem
      have hall := List.any_eq_false.mp hq3 c hcmem
      simpa using hall
    rw [encodeField, if_neg (by simp [hq2])]
    rw [csvFold_unquoted v.data rest [] row acc hsafechars]
    simp

lemma joinWith_cons (sep x : String) (l : List String) (hl : l ≠ []) :
    joinWith sep (x :: l) = x ++ sep ++ joinWith sep l := by
  match l, hl with
  | y :: ys, _ => rfl

lemma encodeLine_cons (v : String) (vs : List String) (h : vs ≠ []) :
    encodeLine (v :: vs) = encodeField v ++ "," ++ encodeLine vs := by
  rw [encodeLine, List.map_cons, joinWith_cons _ _ _ (by simp [h])]
  rfl

lemma csvFold_line_nl :
    ∀ (vs : List String), vs ≠ [] →
      ∀ (rest2 : List Char) (row : List String) (acc : List (List String)),
      csvFold ((encodeLine vs).data ++ '\n' :: rest2) .plain [] row acc =
        csvFold rest2 .plain [] [] (acc ++ [row ++ vs]) := by
  intro vs
  induction vs with
  | nil => intro h; exact absurd rfl h
  | cons v vs ih =>
    intro _ rest2 row acc
    by_cases hvs : vs = []
    · subst hvs
      have he : encodeLine [v] = encodeField v := rfl
      rw [he]
      obtain ⟨st, hst, heq⟩ := csvFold_encodeField v ('\n' :: rest2) row acc
      rw [heq, csvFold_newline st hst, stringMk_data]
    · rw [encodeLine_cons v vs hvs, String.data_append, String.data_append]
      have hcomma : ("," : String).data = [','] := rfl
      rw [hcomma]
      obtain ⟨st, hst, heq⟩ :=
        csvFold_encodeField v (',' :: ((encodeLine vs).data ++ '\n' :: rest2)) row acc
      simp only [List.append_assoc, List.cons_append, List.singleton_append,
        List.nil_append] at heq ⊢
      rw [heq, csvFold_comma st hst, stringMk_data]
      rw [ih hvs rest2 (row ++ [v]) acc]
      rw [show (row ++ [v]) ++ vs = row ++ v :: vs by simp]

lemma csvFold_line_eof :
    ∀ (vs : List String), vs ≠ [] → ∀ (row : List String) (acc : List (List String)),
      csvFold ((encodeLine vs).data) .plain [] row acc = acc ++ [row ++ vs] := by
  intro vs
  induction vs with
  | nil => intro h; exact absurd rfl h
  | cons v vs ih =>
    intro _ row acc
    by_cases hvs : vs = []
    · subst hvs
      have he : encodeLine [v] = encodeField v := rfl
      rw [he]
      obtain ⟨st, hst, heq⟩ := csvFold_encodeField v [] row acc
      rw [List.append_nil] at heq
      rw [heq, csvFold_eof st, stringMk_data]
    · rw [encodeLine_cons v vs hvs, String.data_append, String.data_append]
      have hcomma : ("," : String).data = [','] := rfl
      rw [hcomma]
      obtain ⟨st, hst, heq⟩ :=
        csvFold_encodeField v (',' :: (encodeLine vs).data) row acc
      simp only [List.append_assoc, List.cons_append, List.singleton_append,
        List.nil_append] at heq ⊢
      rw [heq, csvFold_comma st hst, stringMk_data]
      rw [ih hvs (row ++ [v]) acc]
      rw [show (row ++ [v]) ++ vs = row ++ v :: vs by simp]

lemma csvFold_table :
    ∀ (rss : List (List String)), rss ≠ [] → (∀ r ∈ rss, r ≠ []) →
      ∀ (acc : List (List String)),
      csvFold ((joinWith "\n" (rss.map encodeLine)).data) .plain [] [] acc = acc ++ rss := by
  intro rss
  induction rss with
  | nil => intro h; exact absurd rfl h
  | cons r rss ih =>
    intro _ hne acc
    by_cases hr : rss = []
    · subst hr
      have he : joinWith "\n" (List.map encodeLine [r]) = encodeLine r := rfl
      rw [he, csvFold_line_eof r (hne r (by simp)) [] acc]
      simp
    · rw [List.map_cons, joinWith_cons _ _ _ (by simp [hr])]
      rw [String.data_append, String.data_append]
      have hnl : ("\n" : String).data = ['\n'] := rfl
      rw [hnl]
      simp only [List.append_assoc, List.cons_append, List.singleton_append, List.nil_append]
      rw [csvFold_line_nl r (hne r (by simp)) _ [] acc]
      rw [ih hr (fun r2 h2 => hne r2 (by simp [h2])) (acc ++ [[] ++ r])]
      simp

lemma digitChar_safe (d : ℕ) :
    ¬(Nat.digitChar d = ',' ∨ Nat.digitChar d = '"' ∨ Nat.digitChar d = '\n') := by
  by_cases hd : d < 16
  · interval_cases d <;> decide
  · have hstar : Nat.digitChar d = '*' := by
      unfold Nat.digitChar
      repeat rw [if_neg (by omega)]
    rw [hstar]; decide

lemma toDigitsCore_safe :
    ∀ (fuel n : ℕ) (acc : List Char),
      (∀ c ∈ acc, ¬(c = ',' ∨ c = '"' ∨ c = '\n')) →
      ∀ c ∈ Nat.toDigitsCore 10 fuel n acc, ¬(c = ',' ∨ c = '"' ∨ c = '\n') := by
  intro fuel
  induction fuel with
  | zero =>
    intro n acc hacc c hc
    rw [Nat.toDigitsCore] at hc
    exact hacc c hc
  | succ fuel ih =>
    intro n acc hacc c hc
    rw [Nat.toDigitsCore] at hc
    split at hc
    · rcases List.mem_cons.mp hc with rfl | hc2
      · exact digitChar_safe _
      · exact hacc c hc2
    · refine ih (n / 10) _ ?_ c hc
      intro c2 hc2
      rcases List.mem_cons.mp hc2 with rfl | hc3
      · exact digitChar_safe _
      · exact hacc c2 hc3

lemma repr_safe (n : ℕ) : needsQuoting (Nat.repr n) = false := by
  rw [needsQuoting]
  apply List.any_eq_false.mpr
  intro c hc
  have hdata : (Nat.repr n).data = Nat.toDigitsCore 10 (n + 1) n [] := rfl
  rw [hdata] at hc
  have hsafe := toDigitsCore_safe (n + 1) n []
    (fun c2 h2 => absurd h2 (List.not_mem_nil c2)) c hc
  simpa using hsafe

lemma renderField_eq (x : Option Field) : renderField x = encodeField (display x) := by
  rcases x with _ | f
  · decide
  · rcases f with s | n | _
    · rfl
    · show Nat.repr n = encodeField (Nat.repr n)
      rw [encodeField, repr_safe n]
      simp
    · decide

lemma joinRender_eq (hs : List String) (row : List (String × Field)) :
    joinWith "," (hs.map (fun h => renderField (lookupField row h))) =
      encodeLine (hs.map (fun h => display (lookupField row h))) := by
  rw [encodeLine, List.map_map]
  congr 1
  apply List.map_congr_left
  intro h _
  simp only [Function.comp_apply]
  exact renderField_eq (lookupField row h)

lemma lines_map_eq (hs : List String) (rws : List (List (String × Field)))
    (hmaph : hs.map encodeField = hs) :
    joinWith "," hs ::
        rws.map (fun row => joinWith "," (hs.map (fun h => renderField (lookupField row h)))) =
      (hs :: rws.map (fun row => hs.map (fun h => display (lookupField row h)))).map
        encodeLine := by
  rw [List.map_cons]
  congr 1
  · rw [encodeLine, hmaph]
  · rw [List.map_map]
    apply List.map_congr_left
    intro row _
    simp only [Function.comp_apply]
    exact joinRender_eq hs row

/-- C8: CSV escaping round-trip.  For any non-empty list of rows with a
non-empty first row whose keys are plain (no delimiter, quote, or line
break in a key), parsing the toCSV output with the standard reader yields
the header record in the exact key order of the first row, followed by one
record per row whose cells are the displayed values, so every string field
value, however many commas, quotes or line breaks it contains, is
recovered exactly. -/
theorem csv_roundtrip (row0 : List (String × Field)) (rest : List (List (String × Field)))
    (hh : row0.map (fun p => p.1) ≠ [])
    (hsafe : ∀ h ∈ row0.map (fun p => p.1), needsQuoting h = false) :
    parseCSV (toCSV (row0 :: rest)) =
      (row0.map (fun p => p.1)) ::
        (row0 :: rest).map (fun row =>
          (row0.map (fun p => p.1)).map (fun h => display (lookupField row h))) := by
  have hmaph : (row0.map (fun p => p.1)).map encodeField = row0.map (fun p => p.1) := by
    conv_rhs => rw [← List.map_id (row0.map (fun p => p.1))]
    apply List.map_congr_left
    intro h hmem
    simp [encodeField, hsafe h hmem]
  have htocsv : toCSV (row0 :: rest) =
      joinWith "\n" (((row0.map (fun p => p.1)) :: (row0 :: rest).map (fun row =>
        (row0.map (fun p => p.1)).map (fun h => display (lookupField row h)))).map
          encodeLine) := by
    show joinWith "\n" (joinWith "," (row0.map (fun p => p.1)) :: (row0 :: rest).map (fun row =>
      joinWith "," ((row0.map (fun p => p.1)).map (fun h => renderField (lookupField row h))))) = _
    rw [lines_map_eq (row0.map (fun p => p.1)) (row0 :: rest) hmaph]
  have hrss : ∀ r ∈ ((row0.map (fun p => p.1)) :: (row0 :: rest).map (fun row =>
      (row0.map (fun p => p.1)).map (fun h => display (lookupField row h)))), r ≠ [] := by
    intro r hr
    rcases List.mem_cons.mp hr with rfl | hr2
    · exact hh
    · rcases List.mem_map.mp hr2 with ⟨row, _, rfl⟩
      intro hcon
      exact hh (by simpa using hcon)
  have hdat : (toCSV (row0 :: rest)).data ≠ [] := by
    rw [htocsv, List.map_cons, joinWith_cons _ _ _ (by simp)]
    rw [String.data_append, String.data_append]
    have hnl : ("\n" : String).data = ['\n'] := rfl
    rw [hnl]
    simp
  unfold parseCSV
  rw [if_neg hdat, htocsv]
  exact (csvFold_table _ (by simp) hrss []).trans (by simp)

theorem csv_roundtrip_witness :
    (([("id", Field.num 1), ("rationale", Field.str "a,\"b\"\nc")] :
        List (String × Field)).map (fun p => p.1) ≠ []) ∧
    (∀ h ∈ ([("id", Field.num 1), ("rationale", Field.str "a,\"b\"\nc")] :
        List (String × Field)).map (fun p => p.1), needsQuoting h = false) ∧
    parseCSV (toCSV [[("id", Field.num 1), ("rationale", Field.str "a,\"b\"\nc")]]) =
      ([("id", Field.num 1), ("rationale", Field.str "a,\"b\"\nc")].map (fun p => p.1)) ::
        [[("id", Field.num 1), ("rationale", Field.str "a,\"b\"\nc")]].map (fun row =>
          ([("id", Field.num 1),
            ("rationale", Field.str "a,\"b\"\nc")].map (fun p => p.1)).map
            (fun h => display (lookupField row h))) :=
  ⟨by decide, by decide,
   csv_roundtrip [("id", Field.num 1), ("rationale", Field.str "a,\"b\"\nc")] []
     (by decide) (by decide)⟩

end Wisdom
